import Mathlib

/-!
Verification development for the lineage-graph synthesis engine
(`lineage_generator.py`, `relationship_validator.py`).

The Python code is shallow-embedded:

* the shared `networkx.DiGraph` becomes an explicit `Graph` value: an
  association list of node records plus a list of edge records, with
  `add_node` / `add_edge` mirroring networkx semantics (re-adding a node
  merges its attributes; re-adding an ordered pair overwrites the
  relationship attribute; adding an edge with a missing endpoint creates
  that node with no attributes);
* the shared `random` module becomes an explicit stream of natural
  numbers (`List Nat`), one element consumed per primitive draw, with
  `random.randint a b` modelled as `a + k % (b + 1 - a)`,
  `random.choice l` as indexing by `k % l.length`,
  `random.random() < p` as `k % 100 < 100 p`, and `random.sample` /
  `random.shuffle` as repeated removal at a drawn index (every outcome
  the Python primitive can produce is reachable by some stream);
* node attribute dictionaries become a record of `Option`-valued fields
  (a `none` field is an absent key); fields the embedded passes never
  read (`name`, `full_name`, `created_at`, `data_type` and the purely
  decorative context fields) are omitted;
* Python strings stay `String`, counters stay `Nat`, scores become `Int`.
-/

/-! ## Random-stream primitives -/

/-- Consume one element of the random stream (0 when the stream is exhausted). -/
def take1 : List Nat → Nat × List Nat
  | [] => (0, [])
  | k :: rest => (k, rest)

/-- Model of `random.randint(a, b)` (inclusive bounds, `a ≤ b` at every call site). -/
def randintR (a b : Nat) (s : List Nat) : Nat × List Nat :=
  let (k, s') := take1 s
  (a + k % (b + 1 - a), s')

/-- Model of `random.choice(l)`; call sites guard `l ≠ []`. -/
def choiceR {α : Type} (l : List α) (dflt : α) (s : List Nat) : α × List Nat :=
  let (k, s') := take1 s
  (l.getD (k % l.length) dflt, s')

/-- Model of `random.random() < p/100`. -/
def randPctR (p : Nat) (s : List Nat) : Bool × List Nat :=
  let (k, s') := take1 s
  (k % 100 < p, s')

/-- Model of `random.sample(l, k)`: draw `k` distinct positions without
replacement by repeatedly removing at a drawn index. -/
def sampleR {α : Type} : List α → Nat → List Nat → List α × List Nat
  | _, 0, s => ([], s)
  | [], _ + 1, s => ([], s)
  | a :: l, k + 1, s =>
    let (j, s') := take1 s
    let idx := j % (a :: l).length
    let x := (a :: l).getD idx a
    let (rest, s'') := sampleR ((a :: l).eraseIdx idx) k s'
    (x :: rest, s'')

/-- Model of `random.shuffle(l)` (a full sample without replacement). -/
def shuffleR {α : Type} (l : List α) (s : List Nat) : List α × List Nat :=
  sampleR l l.length s

/-- Alphabet used by `_generate_random_name`
(`string.ascii_lowercase + string.digits`). -/
def nameChars : List Char := "abcdefghijklmnopqrstuvwxyz0123456789".toList

/-- The eight independent draws of
`''.join(random.choices(string.ascii_lowercase + string.digits, k=8))`,
packed into a single stream element in base 36. -/
def randomSuffix (k : Nat) : String :=
  String.mk ((List.range 8).map (fun i => nameChars.getD (k / 36 ^ i % 36) 'a'))

/-- Model of `_generate_random_name(prefix)` (suffix length 8 at every call site). -/
def random_name (p : String) (k : Nat) : String :=
  p ++ "_" ++ randomSuffix k

/-! ## The graph data model -/

/-- Attribute record of one node.  Every field is optional: a `none` field
models a key that the corresponding `add_node` call did not set. -/
structure NodeData where
  id : Option String := none
  type_ : Option String := none
  data_source : Option String := none
  team : Option String := none
  database : Option String := none
  schema_ : Option String := none
  score : Option Int := none
  orphaned : Option Bool := none
  is_disconnected_subgraph : Option Bool := none
deriving Repr, DecidableEq

/-- One directed edge with its `relationship` attribute. -/
structure Edge where
  source : String
  target : String
  relationship : String
deriving Repr, DecidableEq

/-- The shared `networkx.DiGraph`: node records in insertion order plus
edge records in insertion order.  networkx keeps at most one edge per
ordered pair; `Graph.add_edge` below maintains that. -/
structure Graph where
  nodes : List (String × NodeData)
  edges : List Edge
deriving Repr, DecidableEq

def Graph.empty : Graph := ⟨[], []⟩

def Graph.hasNode (G : Graph) (n : String) : Bool :=
  G.nodes.any (fun p => p.1 == n)

def Graph.getNode (G : Graph) (n : String) : Option NodeData :=
  (G.nodes.find? (fun p => p.1 == n)).map Prod.snd

/-- Node attribute lookup `self.G.nodes[n].get("type", "unknown")`.  The
callers below only consult it after membership checks, so the `none`
branch mirrors an auto-created attribute-less node. -/
def Graph.nodeType (G : Graph) (n : String) : String :=
  match G.getNode n with
  | some d => d.type_.getD "unknown"
  | none => "unknown"

/-- Node attribute lookup `self.G.nodes[n].get("data_source", "unknown")`. -/
def Graph.nodeDataSource (G : Graph) (n : String) : String :=
  match G.getNode n with
  | some d => d.data_source.getD "unknown"
  | none => "unknown"

/-- networkx attribute merge: fields the new `add_node` call sets
override, unset fields keep their old value. -/
def NodeData.merge (old new : NodeData) : NodeData where
  id := new.id <|> old.id
  type_ := new.type_ <|> old.type_
  data_source := new.data_source <|> old.data_source
  team := new.team <|> old.team
  database := new.database <|> old.database
  schema_ := new.schema_ <|> old.schema_
  score := new.score <|> old.score
  orphaned := new.orphaned <|> old.orphaned
  is_disconnected_subgraph := new.is_disconnected_subgraph <|> old.is_disconnected_subgraph

/-- `self.G.add_node(n, **attrs)`: a fresh id is appended, an existing id
has its attributes merged (networkx does not create a second node). -/
def Graph.add_node (G : Graph) (n : String) (d : NodeData) : Graph :=
  if G.hasNode n then
    { G with nodes := G.nodes.map (fun p => if p.1 == n then (p.1, p.2.merge d) else p) }
  else
    { G with nodes := G.nodes ++ [(n, d)] }

def Graph.hasEdge (G : Graph) (s t : String) : Bool :=
  G.edges.any (fun e => e.source == s && e.target == t)

/-- `self.G.add_edge(s, t, relationship=rel)`: missing endpoints are
created with no attributes; an existing ordered pair has its
`relationship` attribute overwritten; otherwise the edge is appended. -/
def Graph.add_edge (G : Graph) (s t rel : String) : Graph :=
  let G1 := if G.hasNode s then G else G.add_node s {}
  let G2 := if G1.hasNode t then G1 else G1.add_node t {}
  if G2.hasEdge s t then
    { G2 with edges := G2.edges.map (fun e =>
        if e.source == s && e.target == t then { e with relationship := rel } else e) }
  else
    { G2 with edges := G2.edges ++ [⟨s, t, rel⟩] }

/-- `list(self.G.in_edges(n))`. -/
def Graph.in_edges (G : Graph) (n : String) : List Edge :=
  G.edges.filter (fun e => e.target == n)

/-- `list(self.G.out_edges(n))`. -/
def Graph.out_edges (G : Graph) (n : String) : List Edge :=
  G.edges.filter (fun e => e.source == n)

/-- `self.G.remove_edges_from(l)`: removal is by ordered pair. -/
def Graph.remove_edges_from (G : Graph) (l : List Edge) : Graph :=
  { G with edges := G.edges.filter (fun e =>
      !(l.any (fun e' => e'.source == e.source && e'.target == e.target))) }

/-- `self.G.nodes[n]['score'] = v`. -/
def Graph.setScore (G : Graph) (n : String) (v : Int) : Graph :=
  { G with nodes := G.nodes.map (fun p =>
      if p.1 == n then (p.1, { p.2 with score := some v }) else p) }

/-- `self.G.nodes[n]['orphaned'] = True`. -/
def Graph.setOrphaned (G : Graph) (n : String) : Graph :=
  { G with nodes := G.nodes.map (fun p =>
      if p.1 == n then (p.1, { p.2 with orphaned := some true }) else p) }

/-- Keys of the node association list, in insertion order
(`list(self.G.nodes())`). -/
def Graph.keys (G : Graph) : List String := G.nodes.map Prod.fst

/-- Well-formedness every graph the generator ever builds enjoys:
node ids are pairwise distinct. -/
def Graph.NodupKeys (G : Graph) : Prop := G.keys.Nodup

instance (G : Graph) : Decidable G.NodupKeys := by
  unfold Graph.NodupKeys; infer_instance

/-! ## Compatibility Matrix

The static table shared verbatim by
`RelationshipValidator._get_default_relationships` and
`LineageGraphGenerator._setup_valid_relationships`. -/

def default_relationships : List ((String × String) × List String) := [
  -- Parent-child relationships
  (("table", "column"), ["parent_child"]),
  (("view", "column"), ["parent_child"]),
  (("model", "column"), ["parent_child"]),
  (("dashboard", "report"), ["parent_child"]),
  (("report", "metric"), ["parent_child"]),
  (("workflow", "job"), ["parent_child"]),
  (("source", "column"), ["parent_child"]),
  -- Data flow relationships
  (("table", "table"), ["source_to_target", "depends_on", "references", "joins"]),
  (("table", "view"), ["source_to_target", "references"]),
  (("table", "model"), ["source_to_target", "references"]),
  (("view", "view"), ["source_to_target", "depends_on", "references"]),
  (("view", "model"), ["source_to_target", "references"]),
  (("model", "model"), ["source_to_target", "depends_on", "references", "joins"]),
  (("model", "table"), ["produces", "populates"]),
  (("table", "report"), ["source_to_target"]),
  (("view", "report"), ["source_to_target"]),
  (("model", "report"), ["source_to_target"]),
  -- Column-level lineage
  (("column", "column"),
    ["source_to_target", "references", "transforms", "aggregates", "filters", "enriches"]),
  -- Job relationships
  (("job", "table"), ["produces", "consumes", "transforms", "populates"]),
  (("job", "view"), ["produces", "transforms"]),
  (("job", "model"), ["produces", "transforms", "runs"]),
  (("job", "job"), ["depends_on", "runs"]),
  (("job", "topic"), ["produces", "consumes"]),
  (("job", "bucket"), ["produces", "consumes"]),
  -- Streaming & storage
  (("topic", "table"), ["populates", "source_to_target"]),
  (("topic", "model"), ["source_to_target"]),
  (("topic", "job"), ["consumes"]),
  (("bucket", "table"), ["populates", "source_to_target"]),
  (("bucket", "job"), ["consumes"]),
  (("table", "topic"), ["produces"]),
  (("table", "bucket"), ["produces"]),
  -- BI relationships
  (("table", "dashboard"), ["source_to_target"]),
  (("view", "dashboard"), ["source_to_target"]),
  (("model", "dashboard"), ["source_to_target"]),
  (("column", "metric"), ["source_to_target", "references", "aggregates"]),
  -- Other common relationships
  (("source", "model"), ["source_to_target"]),
  (("table", "source"), ["source_to_target"])]

/-- Python dict lookup `m[key]` guarded by `key in m` (first matching
entry; both Python tables have pairwise-distinct keys). -/
def lookupRel (m : List ((String × String) × List String)) (key : String × String) :
    Option (List String) :=
  (m.find? (fun p => p.1 == key)).map Prod.snd

/-- The Compatibility-Matrix lookup order stated by the spec (section
4.1), written from the spec words for the refinement theorems of C4:
exact pair, else `(src, "*")`, else `("*", tgt)`, else empty. -/
def specLookup (m : List ((String × String) × List String)) (s t : String) : List String :=
  match lookupRel m (s, t) with
  | some rels => rels
  | none =>
    match lookupRel m (s, "*") with
    | some rels => rels
    | none =>
      match lookupRel m ("*", t) with
      | some rels => rels
      | none => []

namespace RelationshipValidator

/-- `RelationshipValidator.is_valid_relationship`, parameterised by the
mutable `self.valid_relationships` table. -/
def is_valid_relationship (m : List ((String × String) × List String))
    (source_type target_type relationship_type : String) : Bool :=
  match lookupRel m (source_type, target_type) with
  | some rels => rels.contains relationship_type
  | none =>
    match lookupRel m (source_type, "*") with
    | some rels => rels.contains relationship_type
    | none =>
      match lookupRel m ("*", target_type) with
      | some rels => rels.contains relationship_type
      | none => false

/-- `RelationshipValidator.get_valid_relationships`. -/
def get_valid_relationships (m : List ((String × String) × List String))
    (source_type target_type : String) : List String :=
  match lookupRel m (source_type, target_type) with
  | some rels => rels
  | none =>
    match lookupRel m (source_type, "*") with
    | some rels => rels
    | none =>
      match lookupRel m ("*", target_type) with
      | some rels => rels
      | none => []

/-- `RelationshipValidator.add_relationship_rule` (overwrite semantics). -/
def add_relationship_rule (m : List ((String × String) × List String))
    (source_type target_type : String) (relationship_types : List String) :
    List ((String × String) × List String) :=
  if m.any (fun p => p.1 == (source_type, target_type)) then
    m.map (fun p => if p.1 == (source_type, target_type)
      then (p.1, relationship_types) else p)
  else
    m ++ [((source_type, target_type), relationship_types)]

end RelationshipValidator

/-! ## The generator's own copies of the matrix lookups -/

/-- `LineageGraphGenerator.is_valid_relationship` over the fixed
`self._valid_relationships` table. -/
def is_valid_relationship (source_type target_type relationship_type : String) : Bool :=
  match lookupRel default_relationships (source_type, target_type) with
  | some rels => rels.contains relationship_type
  | none =>
    match lookupRel default_relationships (source_type, "*") with
    | some rels => rels.contains relationship_type
    | none =>
      match lookupRel default_relationships ("*", target_type) with
      | some rels => rels.contains relationship_type
      | none => false

/-- `LineageGraphGenerator.get_valid_relationships`: note that, unlike
the validator module, this copy consults only the exact pair. -/
def get_valid_relationships (source_type target_type : String) : List String :=
  match lookupRel default_relationships (source_type, target_type) with
  | some rels => rels
  | none => []

/-! ## Eligibility Rules (`_setup_data_source_restrictions`) -/

def data_source_asset_types : List (String × List String) := [
  -- Data warehouses
  ("snowflake", ["schema", "table", "view", "column"]),
  ("bigquery", ["schema", "table", "view", "column"]),
  ("redshift", ["schema", "table", "view", "column"]),
  -- Databases
  ("postgres", ["schema", "table", "view", "column"]),
  ("mysql", ["schema", "table", "view", "column"]),
  ("arangodb", ["schema", "table", "view", "column"]),
  -- Transformation
  ("dbt", ["model", "source", "column"]),
  -- Orchestration
  ("airflow", ["workflow", "job"]),
  -- BI Tools
  ("tableau", ["dashboard", "report", "metric", "dimension", "measure"]),
  ("looker", ["dashboard", "report", "metric", "dimension", "measure"]),
  ("powerbi", ["dashboard", "report", "metric", "dimension", "measure"]),
  -- Streaming
  ("kafka", ["topic", "schema"]),
  -- Storage
  ("s3", ["bucket"])]

/-- Python `m.get(key, [])` on a string-keyed table. -/
def lookupD (m : List (String × List String)) (k : String) : List String :=
  match m.find? (fun p => p.1 == k) with
  | some p => p.2
  | none => []

/-- `defaultdict(list)` append `m[k].append(v)`: extends the (first)
entry for `k`, creating the key at the end on first access, exactly as
dict insertion order does. -/
def addToKey (m : List (String × List String)) (k v : String) :
    List (String × List String) :=
  match m with
  | [] => [(k, [v])]
  | (k', l) :: rest =>
    if k' == k then (k', l ++ [v]) :: rest else (k', l) :: addToKey rest k v

/-- The derived reverse index `self.asset_type_data_sources`, built by
iterating the forward mapping exactly once. -/
def asset_type_data_sources : List (String × List String) :=
  data_source_asset_types.foldl
    (fun acc p => p.2.foldl (fun acc' t => addToKey acc' t p.1) acc) []

/-- `LineageGraphGenerator.is_valid_asset_for_data_source`. -/
def is_valid_asset_for_data_source (asset_type data_source : String) : Bool :=
  (lookupD data_source_asset_types data_source).contains asset_type

/-- `LineageGraphGenerator.get_valid_asset_types_for_data_source`. -/
def get_valid_asset_types_for_data_source (data_source : String) : List String :=
  lookupD data_source_asset_types data_source

/-- `LineageGraphGenerator.get_valid_data_sources_for_asset_type`. -/
def get_valid_data_sources_for_asset_type (asset_type : String) : List String :=
  lookupD asset_type_data_sources asset_type

/-! ## The Edge Synthesizer (`add_edge_with_validation`) -/

/-- `LineageGraphGenerator.add_edge_with_validation(source_id, target_id,
relationship=None)`.  Returns the updated graph, the Python return value
and the remaining random stream (one draw is consumed only when no
relationship is supplied and the valid set is non-empty). -/
def add_edge_with_validation (G : Graph) (source_id target_id : String)
    (relationship : Option String) (s : List Nat) : Graph × Bool × List Nat :=
  if !(G.hasNode source_id) || !(G.hasNode target_id) then (G, false, s)
  else
    let source_type := G.nodeType source_id
    let target_type := G.nodeType target_id
    let picked : Option String × List Nat :=
      match relationship with
      | some r => (some r, s)
      | none =>
        let valid_rels := get_valid_relationships source_type target_type
        if valid_rels.isEmpty then (none, s)
        else
          let (r, s') := choiceR valid_rels "" s
          (some r, s')
    match picked with
    | (none, s') => (G, false, s')
    | (some rel, s') =>
      if is_valid_relationship source_type target_type rel then
        (G.add_edge source_id target_id rel, true, s')
      else
        (G, false, s')

/-! ## Run configuration

The constructor parameters of `LineageGraphGenerator`, with the team and
data-source catalogs (external collaborators per spec section 6) carried
as explicit lists of ids: the source builds `self.teams` as
`team_1 .. team_{num_teams}` and `self.data_sources` as the static list
of thirteen ids headed by `"snowflake"`.  `orphaned_node_percent` (a
Python float in `[0, 1]`) is carried as a percent numerator over 100:
`int(n * 0.1)` for the default equals `n * 10 / 100` for every `n`
(the binary double `0.1` exceeds `1/10` by less than one part in `2^52`,
so truncation agrees with the rational floor). -/
structure Config where
  min_nodes : Nat
  edge_multiplier : Nat
  orphaned_node_pct : Nat
  disconnected_subgraphs : Nat
  teams : List String
  data_sources : List String
deriving Repr

/-! ## The Usage-Score Assigner (`_assign_scores`) -/

/-- Score drawn for position `i` of the shuffled node list: the if-chain
of `_assign_scores` (`random.randint(70,100)` / `(40,69)` / `(1,39)` /
the sentinel `-1`). -/
def drawScore (heavy moderate light i : Nat) (s : List Nat) : Int × List Nat :=
  if i < heavy then
    let (k, s') := randintR 70 100 s
    ((k : Int), s')
  else if i < heavy + moderate then
    let (k, s') := randintR 40 69 s
    ((k : Int), s')
  else if i < heavy + moderate + light then
    let (k, s') := randintR 1 39 s
    ((k : Int), s')
  else
    (-1, s)

/-- Body of `for i, node in enumerate(nodes)` in `_assign_scores`. -/
def assign_scores_loop (heavy moderate light : Nat) :
    Graph → List String → Nat → List Nat → Graph × List Nat
  | G, [], _, s => (G, s)
  | G, n :: rest, i, s =>
    let (score, s') := drawScore heavy moderate light i s
    assign_scores_loop heavy moderate light (G.setScore n score) rest (i + 1) s'

/-- `LineageGraphGenerator._assign_scores`.  `int(total * 0.2)` and
`int(total * 0.1)` are `total / 5` and `total / 10`: the binary doubles
`0.2` and `0.1` exceed the exact rationals by under one part in `2^52`,
so the float product truncates to the rational floor for every
realisable node count. -/
def assign_scores (G : Graph) (s : List Nat) : Graph × List Nat :=
  let (nodes, s1) := shuffleR G.keys s
  let total_nodes := nodes.length
  let heavy_usage_count := total_nodes / 5
  let moderate_usage_count := total_nodes / 10
  let light_usage_count := total_nodes / 5
  assign_scores_loop heavy_usage_count moderate_usage_count light_usage_count
    G nodes 0 s1

/-! ## The streaming factory (`_generate_streaming_assets`) -/

/-- Attribute set of the topic node added at lines 1259-1266. -/
def topicNodeData (topic_id ds_id team_id : String) : NodeData :=
  { id := some topic_id, type_ := some "topic", data_source := some ds_id,
    team := some team_id }

/-- Attribute set of the per-topic schema node added at lines 1275-1283. -/
def topicSchemaNodeData (schema_id ds_id team_id : String) : NodeData :=
  { id := some schema_id, type_ := some "schema", data_source := some ds_id,
    team := some team_id }

/-- Body of `for i in range(topic_count)` in
`_generate_streaming_assets`; the `Nat` result is the team's running
node count. -/
def streaming_topic_loop (team_id ds_id : String) (can_create_schemas : Bool)
    (nodes_per_team : Nat) :
    Nat → Graph → Nat → List Nat → Graph × Nat × List Nat
  | 0, G, cnt, s => (G, cnt, s)
  | rem + 1, G, cnt, s =>
    if nodes_per_team ≤ cnt then (G, cnt, s)
    else
      let (kname, s1) := take1 s
      let topic_name := random_name "topic" kname
      let topic_id := ds_id ++ "." ++ topic_name
      let G1 := G.add_node topic_id (topicNodeData topic_id ds_id team_id)
      let cnt1 := cnt + 1
      let (G2, cnt2) :=
        if can_create_schemas then
          let schema_name := topic_name ++ "_schema"
          let schema_id := topic_id ++ "." ++ schema_name
          let Ga := G1.add_node schema_id (topicSchemaNodeData schema_id ds_id team_id)
          (Ga.add_edge topic_id schema_id "parent_child", cnt1 + 1)
        else (G1, cnt1)
      let potential_producers := (G2.nodes.filter (fun p =>
        (p.2.type_ == some "job" || p.2.type_ == some "table") &&
          p.2.team == some team_id)).map Prod.fst
      let potential_consumers := (G2.nodes.filter (fun p =>
        (p.2.type_ == some "job" || p.2.type_ == some "table" ||
          p.2.type_ == some "model") && p.2.team == some team_id)).map Prod.fst
      let (G3, s2) :=
        if potential_producers.isEmpty then (G2, s1)
        else
          let (pc, s') := randintR 0 3 s1
          let producer_count := min pc potential_producers.length
          if producer_count == 0 then (G2, s')
          else
            let (producers, s'') := sampleR potential_producers producer_count s'
            producers.foldl (fun q p =>
              let (g', _, st') := add_edge_with_validation q.1 p topic_id
                (some "produces") q.2
              (g', st')) (G2, s'')
      let (G4, s3) :=
        if potential_consumers.isEmpty then (G3, s2)
        else
          let (cc, s') := randintR 0 5 s2
          let consumer_count := min cc potential_consumers.length
          if consumer_count == 0 then (G3, s')
          else
            let (consumers, s'') := sampleR potential_consumers consumer_count s'
            consumers.foldl (fun q c =>
              let (g', _, st') := add_edge_with_validation q.1 topic_id c
                (some "consumes") q.2
              (g', st')) (G3, s'')
      streaming_topic_loop team_id ds_id can_create_schemas nodes_per_team
        rem G4 cnt2 s3

/-- `LineageGraphGenerator._generate_streaming_assets(team, data_source,
team_node_counts, nodes_per_team)`, with `cnt` the team's entry of
`team_node_counts`. -/
def generate_streaming_assets (team_id ds_id : String) (cnt nodes_per_team : Nat)
    (G : Graph) (s : List Nat) : Graph × Nat × List Nat :=
  if nodes_per_team ≤ cnt then (G, cnt, s)
  else
    let valid_asset_types := get_valid_asset_types_for_data_source ds_id
    let can_create_topics := valid_asset_types.contains "topic"
    let can_create_schemas := valid_asset_types.contains "schema"
    if !can_create_topics then (G, cnt, s)
    else
      let (topic_count, s1) := randintR 5 20 s
      streaming_topic_loop team_id ds_id can_create_schemas nodes_per_team
        topic_count G cnt s1

/-! ## Quota Controller: supplemental node pass (`_add_additional_nodes`) -/

/-- Attribute set of one supplemental node (lines 1500-1507). -/
def additionalNodeData (asset_id asset_type ds_id team_id : String) : NodeData :=
  { id := some asset_id, type_ := some asset_type, data_source := some ds_id,
    team := some team_id }

/-- Increment the allocation of the team at position `i`
(`team_allocation[team_id] += 1` for `team_id = self.teams[i % len]`;
the teams are pairwise distinct, so position selects the team). -/
def bumpAt : List (String × Nat) → Nat → List (String × Nat)
  | [], _ => []
  | p :: rest, 0 => (p.1, p.2 + 1) :: rest
  | p :: rest, i + 1 => p :: bumpAt rest i

/-- The per-target edge attempt inside the supplemental node loop
(lines 1519-1523): pick a relationship for the pair if any is valid and
route it through the Edge Synthesizer. -/
def additional_node_edge_step (asset_type asset_id : String)
    (q : Graph × List Nat) (target_id : String) : Graph × List Nat :=
  let valid_rels := get_valid_relationships asset_type (q.1.nodeType target_id)
  if valid_rels.isEmpty then q
  else
    let (rel_type, st') := choiceR valid_rels "" q.2
    let (g', _, st'') := add_edge_with_validation q.1 asset_id target_id (some rel_type) st'
    (g', st'')

/-- Body of `for i in range(nodes_to_add)` for one team.  Besides the
graph and stream it accumulates the list of `asset_id`s the pass drew,
in order (pure instrumentation: the ids are computed exactly as the code
computes them and do not influence the run). -/
def add_additional_nodes_team (team_id ds_id : String)
    (valid_asset_types : List String) :
    Nat → Graph → List String → List Nat → Graph × List String × List Nat
  | 0, G, ids, s => (G, ids, s)
  | n + 1, G, ids, s =>
    let (asset_type, s1) := choiceR valid_asset_types "" s
    let (kname, s2) := take1 s1
    let asset_name := random_name asset_type kname
    let asset_id := "additional." ++ team_id ++ "." ++ asset_type ++ "." ++ asset_name
    let G1 := G.add_node asset_id (additionalNodeData asset_id asset_type ds_id team_id)
    let existing_nodes := (G1.nodes.filter (fun p =>
      p.2.team == some team_id && p.2.id != some asset_id)).map Prod.fst
    let (G2, s3) :=
      if existing_nodes.isEmpty then (G1, s2)
      else
        let (cc, s') := randintR 1 3 s2
        let connection_count := min cc existing_nodes.length
        let (targets, s'') := sampleR existing_nodes connection_count s'
        targets.foldl (additional_node_edge_step asset_type asset_id) (G1, s'')
    add_additional_nodes_team team_id ds_id valid_asset_types n G2
      (ids ++ [asset_id]) s3

/-- The `for team in self.teams` body of `_add_additional_nodes`,
walking the allocation list in team order. -/
def add_additional_nodes_go (cfg : Config) :
    List (String × Nat) → Graph → List String → List Nat →
      Graph × List String × List Nat
  | [], G, ids, s => (G, ids, s)
  | (team_id, nodes_to_add) :: rest, G, ids, s =>
    if nodes_to_add == 0 then add_additional_nodes_go cfg rest G ids s
    else
      let valid_data_sources := cfg.data_sources.filter (fun d =>
        !(get_valid_asset_types_for_data_source d).isEmpty)
      if valid_data_sources.isEmpty then add_additional_nodes_go cfg rest G ids s
      else
        let (ds_id, s1) := choiceR valid_data_sources "" s
        let valid_asset_types := get_valid_asset_types_for_data_source ds_id
        if valid_asset_types.isEmpty then add_additional_nodes_go cfg rest G ids s1
        else
          let (G', ids', s') := add_additional_nodes_team team_id ds_id
            valid_asset_types nodes_to_add G ids s1
          add_additional_nodes_go cfg rest G' ids' s'

/-- `LineageGraphGenerator._add_additional_nodes(count)`.  The extra
nodes go to the first `count % len(teams)` teams (`i % len = i` there
since the range bound is below `len`); the result carries the drawn
`asset_id` list as instrumentation. -/
def add_additional_nodes (cfg : Config) (G : Graph) (count : Nat) (s : List Nat) :
    Graph × List String × List Nat :=
  let L := cfg.teams.length
  let nodes_per_team := count / L
  let extra_nodes := count % L
  let base := cfg.teams.map (fun t => (t, nodes_per_team))
  let team_allocation := (List.range extra_nodes).foldl (fun al i => bumpAt al (i % L)) base
  add_additional_nodes_go cfg team_allocation G [] s

/-! ## Quota Controller: supplemental edge pass (`_add_additional_edges`) -/

/-- The `while edges_added < count and attempts < max_attempts` loop of
`_add_additional_edges`, recursing on the remaining attempt budget
(`fuel = max_attempts - attempts`); the second result is `edges_added`
and the third the number of attempts performed. -/
def add_additional_edges_loop (nodes : List String) (count : Nat) :
    Graph → Nat → Nat → Nat → List Nat → Graph × Nat × Nat × List Nat
  | G, edges_added, attempts, 0, s => (G, edges_added, attempts, s)
  | G, edges_added, attempts, fuel + 1, s =>
    if count ≤ edges_added then (G, edges_added, attempts, s)
    else
      let attempts' := attempts + 1
      let (source, s1) := choiceR nodes "" s
      let (target, s2) := choiceR nodes "" s1
      if source == target then
        add_additional_edges_loop nodes count G edges_added attempts' fuel s2
      else if G.hasEdge source target then
        add_additional_edges_loop nodes count G edges_added attempts' fuel s2
      else
        let source_type := G.nodeType source
        let target_type := G.nodeType target
        let source_ds := G.nodeDataSource source
        let target_ds := G.nodeDataSource target
        if !(is_valid_asset_for_data_source source_type source_ds) ||
            !(is_valid_asset_for_data_source target_type target_ds) then
          add_additional_edges_loop nodes count G edges_added attempts' fuel s2
        else
          let valid_rels := get_valid_relationships source_type target_type
          if valid_rels.isEmpty then
            add_additional_edges_loop nodes count G edges_added attempts' fuel s2
          else
            let (rel, s3) := choiceR valid_rels "" s2
            let (G', ok, s4) := add_edge_with_validation G source target (some rel) s3
            if ok then
              add_additional_edges_loop nodes count G' (edges_added + 1) attempts' fuel s4
            else
              add_additional_edges_loop nodes count G' edges_added attempts' fuel s4

/-- `LineageGraphGenerator._add_additional_edges(count)`
(`max_attempts = count * 10`). -/
def add_additional_edges (G : Graph) (count : Nat) (s : List Nat) :
    Graph × Nat × Nat × List Nat :=
  let nodes := G.keys
  if nodes.length < 2 then (G, 0, 0, s)
  else add_additional_edges_loop nodes count G 0 0 (count * 10) s

/-! ## Connectivity Shaper: orphan injector (`_create_orphaned_nodes`) -/

/-- Edge removal for one orphan: `remove_edges_from(in_edges)` then
`remove_edges_from(out_edges)`, then `nodes[node]['orphaned'] = True`. -/
def orphanOne (G : Graph) (node : String) : Graph :=
  let G1 := G.remove_edges_from (G.in_edges node)
  let G2 := G1.remove_edges_from (G1.out_edges node)
  G2.setOrphaned node

/-- `LineageGraphGenerator._create_orphaned_nodes`. -/
def create_orphaned_nodes (cfg : Config) (G : Graph) (s : List Nat) :
    Graph × List Nat :=
  let all_nodes := G.keys
  let num_orphans := all_nodes.length * cfg.orphaned_node_pct / 100
  let candidate_nodes := all_nodes.filter (fun n =>
    !(["schema", "workflow", "dashboard"].contains (G.nodeType n)) &&
      (G.out_edges n).length ≤ 3 && (G.in_edges n).length ≤ 3)
  let candidate_nodes := if candidate_nodes.length < num_orphans then all_nodes
    else candidate_nodes
  let (orphan_nodes, s') := sampleR candidate_nodes
    (min num_orphans candidate_nodes.length) s
  (orphan_nodes.foldl orphanOne G, s')

/-! ## Connectivity Shaper: disconnected-subgraph injector
(`_create_disconnected_subgraphs`) -/

/-- Prefix of every node id the subgraph injector creates (checked on
the underlying character list). -/
def isClusterId (n : String) : Bool := "disconnected.".toList.isPrefixOf n.toList

/-- The id scheme `f"disconnected.{i}.{type}.{name}"` of the subgraph
injector. -/
def clusterId (i : Nat) (ty name : String) : String :=
  "disconnected." ++ toString i ++ "." ++ ty ++ "." ++ name

/-- Attribute set shared by the central and child cluster nodes
(`is_disconnected_subgraph=True`). -/
def clusterNodeData (node_id ty ds_id team : String) : NodeData :=
  { id := some node_id, type_ := some ty, data_source := some ds_id,
    team := some team, is_disconnected_subgraph := some true }

/-- The `[node for node in self.G.nodes() if
nodes[node].get('is_disconnected_subgraph') == True]` comprehension. -/
def clusterNodes (G : Graph) : List String :=
  (G.nodes.filter (fun p => p.2.is_disconnected_subgraph == some true)).map Prod.fst

/-- Child-type selection at the top of the child loop.  `random.random()`
comparisons consume one draw; the `workflow` arm consumes none. -/
def clusterChildType (central_type : String) (s : List Nat) : String × List Nat :=
  if central_type == "table" then
    let (b, s') := randPctR 80 s
    (if b then "column" else "view", s')
  else if central_type == "model" then
    let (b, s') := randPctR 70 s
    (if b then "column" else "model", s')
  else if central_type == "dashboard" then
    choiceR ["report", "metric", "dimension"] "report" s
  else ("job", s)

/-- Body of `for j in range(subgraph_size - 1)` of one subgraph
iteration `i` (`rem` children remain, `j` is the running index).  Note
`random.random() < 0.7 or j < 3` draws before testing `j < 3`. -/
def cluster_child_loop (i : Nat) (central_type central_id ds_id team : String) :
    Nat → Nat → Graph → List Nat → Graph × List Nat
  | 0, _, G, s => (G, s)
  | rem + 1, j, G, s =>
    let (child_type, s1) := clusterChildType central_type s
    let (kname, s2) := take1 s1
    let child_name := random_name ("disconnected_" ++ child_type) kname
    let child_id := clusterId i child_type child_name
    let G1 := G.add_node child_id (clusterNodeData child_id child_type ds_id team)
    let (toCentral, s3) := randPctR 70 s2
    let (G2, s4) :=
      if toCentral || j < 3 then
        let valid_rels := get_valid_relationships central_type child_type
        if valid_rels.isEmpty then (G1, s3)
        else
          let (rel_type, s') := choiceR valid_rels "" s3
          (G1.add_edge central_id child_id rel_type, s')
      else
        let subgraph_nodes := (clusterNodes G1).filter (fun n => n != child_id)
        if subgraph_nodes.isEmpty then (G1, s3)
        else
          let (potential_parent, s') := choiceR subgraph_nodes "" s3
          let parent_type := G1.nodeType potential_parent
          let valid_rels := get_valid_relationships parent_type child_type
          if valid_rels.isEmpty then (G1, s')
          else
            let (rel_type, s'') := choiceR valid_rels "" s'
            (G1.add_edge potential_parent child_id rel_type, s'')
    cluster_child_loop i central_type central_id ds_id team rem (j + 1) G2 s4

/-- The trailing `for _ in range(min(5, len(subgraph_nodes)))` loop that
adds a few internal edges (the node list is computed once, before the
loop). -/
def cluster_extra_loop (subgraph_nodes : List String) :
    Nat → Graph → List Nat → Graph × List Nat
  | 0, G, s => (G, s)
  | rem + 1, G, s =>
    let (source, s1) := choiceR subgraph_nodes "" s
    let (target, s2) := choiceR subgraph_nodes "" s1
    let (G', s3) :=
      if source != target && !(G.hasEdge source target) then
        let valid_rels := get_valid_relationships (G.nodeType source) (G.nodeType target)
        if valid_rels.isEmpty then (G, s2)
        else
          let (rel_type, s') := choiceR valid_rels "" s2
          (G.add_edge source target rel_type, s')
      else (G, s2)
    cluster_extra_loop subgraph_nodes rem G' s3

/-- One iteration `i` of `for i in range(self.disconnected_subgraphs)`. -/
def cluster_iteration (cfg : Config) (i : Nat) (G : Graph) (s : List Nat) :
    Graph × List Nat :=
  let (subgraph_size, s1) := randintR 5 15 s
  let (subgraph_team, s2) := choiceR cfg.teams "" s1
  let (ds_id, s3) := choiceR cfg.data_sources "" s2
  let (central_type, s4) := choiceR ["table", "model", "dashboard", "workflow"] "table" s3
  let (kname, s5) := take1 s4
  let central_name := random_name ("disconnected_" ++ central_type) kname
  let central_id := clusterId i central_type central_name
  let G1 := G.add_node central_id (clusterNodeData central_id central_type ds_id subgraph_team)
  let (G2, s6) := cluster_child_loop i central_type central_id ds_id subgraph_team
    (subgraph_size - 1) 0 G1 s5
  let subgraph_nodes := clusterNodes G2
  cluster_extra_loop subgraph_nodes (min 5 subgraph_nodes.length) G2 s6

/-- `LineageGraphGenerator._create_disconnected_subgraphs`. -/
def create_disconnected_subgraphs (cfg : Config) (G : Graph) (s : List Nat) :
    Graph × List Nat :=
  (List.range cfg.disconnected_subgraphs).foldl
    (fun q i => cluster_iteration cfg i q.1 q.2) (G, s)

/-- The tail of `generate_graph` (lines 400-405): orphan injection, then
disconnected-subgraph injection, then score assignment. -/
def finishing_passes (cfg : Config) (G : Graph) (s : List Nat) : Graph :=
  let (G1, s1) := create_orphaned_nodes cfg G s
  let (G2, s2) := create_disconnected_subgraphs cfg G1 s1
  (assign_scores G2 s2).1

/-! ## Basic lemmas about the random primitives and graph operations -/

theorem getD_mem_of_lt {α : Type} (l : List α) (i : Nat) (d : α) (h : i < l.length) :
    l.getD i d ∈ l := by
  rw [List.getD_eq_getElem?_getD, List.getElem?_eq_getElem h, Option.getD_some]
  exact List.getElem_mem h

theorem choiceR_fst_mem {α : Type} (l : List α) (dflt : α) (s : List Nat)
    (h : l ≠ []) : (choiceR l dflt s).1 ∈ l := by
  unfold choiceR
  exact getD_mem_of_lt l _ _ (Nat.mod_lt _ (List.length_pos.mpr h))

theorem sampleR_fst_subset {α : Type} :
    ∀ (k : Nat) (l : List α) (s : List Nat), ∀ x ∈ (sampleR l k s).1, x ∈ l := by
  intro k
  induction k with
  | zero => intro l s x hx; simp [sampleR] at hx
  | succ k ih =>
    intro l s x hx
    match l with
    | [] => simp [sampleR] at hx
    | a :: l' =>
      simp only [sampleR] at hx
      rcases List.mem_cons.mp hx with rfl | hx'
      · exact getD_mem_of_lt _ _ _ (Nat.mod_lt _ (by simp))
      · exact (List.eraseIdx_subset _ _) (ih _ _ _ hx')

theorem perm_cons_getD_eraseIdx {α : Type} [DecidableEq α] (l : List α) (i : Nat) (d : α)
    (h : i < l.length) : (l.getD i d :: l.eraseIdx i).Perm l := by
  have h1 : l.getD i d = l[i] := by
    rw [List.getD_eq_getElem?_getD, List.getElem?_eq_getElem h, Option.getD_some]
  rw [h1]
  exact ((List.perm_cons_erase (List.getElem_mem h)).trans
    ((List.erase_getElem h).cons _)).symm

theorem sampleR_perm_of_full {α : Type} [DecidableEq α] :
    ∀ (n : Nat) (l : List α), l.length = n → ∀ (s : List Nat),
      (sampleR l n s).1.Perm l := by
  intro n
  induction n with
  | zero =>
    intro l hn s
    rw [List.length_eq_zero] at hn
    subst hn; simp [sampleR]
  | succ k ih =>
    intro l hn s
    match l with
    | [] => simp at hn
    | a :: l' =>
      simp only [sampleR]
      have hlt : (take1 s).1 % (a :: l').length < (a :: l').length :=
        Nat.mod_lt _ (by simp)
      have hlen : ((a :: l').eraseIdx ((take1 s).1 % (a :: l').length)).length = k := by
        have := List.length_eraseIdx_add_one hlt
        omega
      have hperm := ih _ hlen ((take1 s).2)
      exact (hperm.cons _).trans (perm_cons_getD_eraseIdx _ _ _ hlt)

theorem shuffleR_perm {α : Type} [DecidableEq α] (l : List α) (s : List Nat) :
    (shuffleR l s).1.Perm l := sampleR_perm_of_full l.length l rfl s

theorem Graph.hasNode_false_iff_getNode_none (G : Graph) (n : String) :
    G.hasNode n = false ↔ G.getNode n = none := by
  unfold Graph.hasNode Graph.getNode
  rw [Option.map_eq_none', List.find?_eq_none, List.any_eq_false]

theorem Graph.hasNode_true_iff_getNode_isSome (G : Graph) (n : String) :
    G.hasNode n = true ↔ (G.getNode n).isSome := by
  rcases h : G.hasNode n with _ | _
  · rw [(G.hasNode_false_iff_getNode_none n).mp h]
    simp
  · constructor
    · intro _
      rcases hg : G.getNode n with _ | d
      · rw [← G.hasNode_false_iff_getNode_none n] at hg
        rw [hg] at h; cases h
      · simp
    · intro _; rfl

/-! ## Lemmas about the Compatibility-Matrix lookups -/

theorem lookupRel_wild_fst (s : String) :
    lookupRel default_relationships (s, "*") = none := by
  rw [lookupRel, List.find?_eq_none.2, Option.map_none']
  intro p hp
  fin_cases hp <;> simp

theorem lookupRel_wild_snd (t : String) :
    lookupRel default_relationships ("*", t) = none := by
  rw [lookupRel, List.find?_eq_none.2, Option.map_none']
  intro p hp
  fin_cases hp <;> simp

/-- The validator module's set getter is exactly the spec lookup order. -/
theorem validator_get_eq_specLookup (m : List ((String × String) × List String))
    (s t : String) : RelationshipValidator.get_valid_relationships m s t = specLookup m s t :=
  rfl

/-- The validator module's membership test is membership in the
spec lookup order. -/
theorem validator_is_valid_eq_specLookup (m : List ((String × String) × List String))
    (s t r : String) : RelationshipValidator.is_valid_relationship m s t r =
      (specLookup m s t).contains r := by
  unfold RelationshipValidator.is_valid_relationship specLookup
  rcases lookupRel m (s, t) with _ | rels
  · rcases lookupRel m (s, "*") with _ | rels
    · rcases lookupRel m ("*", t) with _ | rels <;> simp
    · simp
  · simp

/-- The generator's membership test also follows the spec lookup order
(over its fixed default table). -/
theorem generator_is_valid_eq_specLookup (s t r : String) :
    is_valid_relationship s t r = (specLookup default_relationships s t).contains r := by
  unfold is_valid_relationship specLookup
  rcases lookupRel default_relationships (s, t) with _ | rels
  · rcases lookupRel default_relationships (s, "*") with _ | rels
    · rcases lookupRel default_relationships ("*", t) with _ | rels <;> simp
    · simp
  · simp

/-- The generator's set getter only consults the exact pair, but the
default table holds no wildcard entry, so it agrees with the spec lookup
order extensionally. -/
theorem generator_get_eq_specLookup (s t : String) :
    get_valid_relationships s t = specLookup default_relationships s t := by
  unfold get_valid_relationships specLookup
  rcases lookupRel default_relationships (s, t) with _ | rels
  · rw [lookupRel_wild_fst, lookupRel_wild_snd]
  · rfl

/-- Claim C4: for all source and target types, the relationship lookups
consult the matrix in this order: the exact `(srcType, tgtType)` entry;
if absent, the `(srcType, "*")` entry; if absent, the `("*", tgtType)`
entry; if all three are absent the set getter returns the empty
collection and the membership test returns `false` — for the
`RelationshipValidator` module over any table (it is mutable through
`add_relationship_rule`) and for the generator's own copies over the
generator's fixed table (`specLookup` is that lookup order, written from
the spec). -/
theorem C4_lookup_order (m : List ((String × String) × List String)) (s t r : String) :
    RelationshipValidator.get_valid_relationships m s t = specLookup m s t ∧
    RelationshipValidator.is_valid_relationship m s t r = (specLookup m s t).contains r ∧
    get_valid_relationships s t = specLookup default_relationships s t ∧
    is_valid_relationship s t r = (specLookup default_relationships s t).contains r ∧
    (lookupRel m (s, t) = none → lookupRel m (s, "*") = none →
      lookupRel m ("*", t) = none →
      RelationshipValidator.get_valid_relationships m s t = [] ∧
      RelationshipValidator.is_valid_relationship m s t r = false) ∧
    (lookupRel default_relationships (s, t) = none →
      get_valid_relationships s t = [] ∧ is_valid_relationship s t r = false) := by
  refine ⟨validator_get_eq_specLookup m s t, validator_is_valid_eq_specLookup m s t r,
    generator_get_eq_specLookup s t, generator_is_valid_eq_specLookup s t r, ?_, ?_⟩
  · intro h1 h2 h3
    have hspec : specLookup m s t = [] := by
      unfold specLookup
      rw [h1, h2, h3]
    rw [validator_get_eq_specLookup, validator_is_valid_eq_specLookup, hspec]
    exact ⟨rfl, rfl⟩
  · intro h1
    have hspec : specLookup default_relationships s t = [] := by
      unfold specLookup
      rw [h1, lookupRel_wild_fst, lookupRel_wild_snd]
    rw [generator_get_eq_specLookup, generator_is_valid_eq_specLookup, hspec]
    exact ⟨rfl, rfl⟩

/-- Witness for C4 at a concrete absent pair and at a concrete present
pair of the shipped table. -/
theorem C4_lookup_order_witness :
    (lookupRel default_relationships ("schema", "table") = none ∧
      RelationshipValidator.get_valid_relationships default_relationships "schema" "table" = [] ∧
      RelationshipValidator.is_valid_relationship default_relationships "schema" "table"
        "parent_child" = false) ∧
    get_valid_relationships "table" "column" =
      specLookup default_relationships "table" "column" :=
  ⟨⟨by decide,
    (C4_lookup_order default_relationships "schema" "table" "parent_child").2.2.2.2.1
      (by decide) (by decide) (by decide)⟩,
   (C4_lookup_order default_relationships "table" "column" "parent_child").2.2.1⟩

/-! ## Lemmas about the eligibility tables and the derived reverse index -/

theorem lookupD_cons (k' : String) (l : List String) (rest : List (String × List String))
    (x : String) : lookupD ((k', l) :: rest) x = if k' = x then l else lookupD rest x := by
  by_cases h : k' = x
  · subst h
    simp [lookupD, List.find?_cons_of_pos]
  · rw [lookupD, List.find?_cons_of_neg _ (by simpa using h), if_neg h]
    rfl

theorem lookupD_nil (x : String) : lookupD [] x = [] := rfl

theorem lookupD_addToKey (k v : String) :
    ∀ (m : List (String × List String)) (x : String),
      lookupD (addToKey m k v) x =
        if x = k then lookupD m k ++ [v] else lookupD m x := by
  intro m
  induction m with
  | nil =>
    intro x
    by_cases h : x = k
    · subst h
      simp [addToKey, lookupD_cons, lookupD_nil]
    · have h2 : ¬ k = x := fun he => h he.symm
      simp [addToKey, lookupD_cons, lookupD_nil, h, h2]
  | cons p rest ih =>
    obtain ⟨k', l⟩ := p
    intro x
    by_cases hk : k' = k
    · subst hk
      by_cases hx : k' = x
      · subst hx
        simp [addToKey, lookupD_cons]
      · have hx2 : ¬ x = k' := fun he => hx he.symm
        simp [addToKey, lookupD_cons, hx, hx2]
    · have hk2 : ¬ k = k' := fun he => hk he.symm
      by_cases hx : k' = x
      · have hxk : ¬ x = k := fun he => hk (hx.trans he)
        rw [addToKey, if_neg (by simpa using hk), lookupD_cons, if_pos hx, if_neg hxk,
          lookupD_cons, if_pos hx]
      · have hx2 : ¬ x = k' := fun he => hx he.symm
        simp [addToKey, lookupD_cons, hk, hk2, hx, hx2, ih]

theorem mem_lookupD_fold_inner (dsrc : String) :
    ∀ (ts : List String) (acc : List (String × List String)) (x y : String),
      (y ∈ lookupD (ts.foldl (fun a t => addToKey a t dsrc) acc) x ↔
        y ∈ lookupD acc x ∨ (x ∈ ts ∧ y = dsrc)) := by
  intro ts
  induction ts with
  | nil => intro acc x y; simp
  | cons t ts ih =>
    intro acc x y
    rw [List.foldl_cons, ih, lookupD_addToKey]
    by_cases hx : x = t
    · rw [if_pos hx]
      simp only [List.mem_append, List.mem_singleton, List.mem_cons]
      rw [hx]
      tauto
    · rw [if_neg hx]
      simp only [List.mem_cons]
      tauto

theorem mem_lookupD_fold_outer :
    ∀ (m : List (String × List String)) (acc : List (String × List String)) (x y : String),
      (y ∈ lookupD (m.foldl (fun acc' p => p.2.foldl (fun a t => addToKey a t p.1) acc') acc) x ↔
        y ∈ lookupD acc x ∨ ∃ p ∈ m, p.1 = y ∧ x ∈ p.2) := by
  intro m
  induction m with
  | nil => intro acc x y; simp
  | cons p m ih =>
    intro acc x y
    rw [List.foldl_cons, ih, mem_lookupD_fold_inner]
    simp only [List.mem_cons]
    constructor
    · rintro ((h | ⟨hx, rfl⟩) | ⟨q, hq, rfl, hxq⟩)
      · exact Or.inl h
      · exact Or.inr ⟨p, Or.inl rfl, rfl, hx⟩
      · exact Or.inr ⟨q, Or.inr hq, rfl, hxq⟩
    · rintro (h | ⟨q, (rfl | hq), rfl, hxq⟩)
      · exact Or.inl (Or.inl h)
      · exact Or.inl (Or.inr ⟨hxq, rfl⟩)
      · exact Or.inr ⟨q, hq, rfl, hxq⟩

theorem mem_lookupD_reverse (x y : String) :
    y ∈ lookupD asset_type_data_sources x ↔
      ∃ p ∈ data_source_asset_types, p.1 = y ∧ x ∈ p.2 := by
  rw [asset_type_data_sources, mem_lookupD_fold_outer]
  simp [lookupD]

theorem lookupD_eq_of_mem :
    ∀ (m : List (String × List String)), (m.map Prod.fst).Nodup →
      ∀ (d : String) (l : List String), (d, l) ∈ m → lookupD m d = l := by
  intro m
  induction m with
  | nil => intro _ d l h; cases h
  | cons p rest ih =>
    intro hn d l h
    obtain ⟨k', l'⟩ := p
    rcases List.mem_cons.mp h with he | h'
    · obtain ⟨rfl, rfl⟩ := Prod.mk.injEq .. ▸ he
      injection he with h1 h2
      rw [lookupD_cons]
      simp [h1, h2]
    · have hd : ¬ k' = d := by
        intro he
        subst he
        rw [List.map_cons, List.nodup_cons] at hn
        exact hn.1 (List.mem_map.mpr ⟨(k', l), h', rfl⟩)
      rw [lookupD_cons, if_neg hd]
      exact ih (by rw [List.map_cons, List.nodup_cons] at hn; exact hn.2) d l h'

theorem mem_of_mem_lookupD (m : List (String × List String)) (d a : String)
    (h : a ∈ lookupD m d) : ∃ l, (d, l) ∈ m ∧ a ∈ l := by
  unfold lookupD at h
  rcases hf : m.find? (fun p => p.1 == d) with _ | p
  · rw [hf] at h; cases h
  · rw [hf] at h
    have hmem := List.mem_of_find?_eq_some hf
    have hkey : p.1 = d := by
      have := List.find?_some hf
      simpa using this
    exact ⟨p.2, by rw [← hkey]; exact hmem, h⟩

theorem lookupD_eq_nil_of_not_key (m : List (String × List String)) (d : String)
    (h : d ∉ m.map Prod.fst) : lookupD m d = [] := by
  unfold lookupD
  rw [List.find?_eq_none.2]
  intro p hp hbeq
  exact h (List.mem_map.mpr ⟨p, hp, by simpa using hbeq⟩)

/-- Claim C10: the forward and reverse eligibility indexes always agree:
`is_valid_asset_for_data_source(a, d)` is true iff `a` is in
`get_valid_asset_types_for_data_source(d)` iff `d` is in
`get_valid_data_sources_for_asset_type(a)`; and for a data source absent
from the static mapping the first query is false and the second returns
the empty list. -/
theorem C10_eligibility_indexes_agree : ∀ a d : String,
    (is_valid_asset_for_data_source a d = true ↔
      a ∈ get_valid_asset_types_for_data_source d) ∧
    (a ∈ get_valid_asset_types_for_data_source d ↔
      d ∈ get_valid_data_sources_for_asset_type a) ∧
    (d ∉ data_source_asset_types.map Prod.fst →
      is_valid_asset_for_data_source a d = false ∧
      get_valid_asset_types_for_data_source d = []) := by
  intro a d
  refine ⟨List.elem_iff, ?_, ?_⟩
  · rw [get_valid_asset_types_for_data_source, get_valid_data_sources_for_asset_type,
      mem_lookupD_reverse]
    constructor
    · intro h
      obtain ⟨l, hl, hal⟩ := mem_of_mem_lookupD _ _ _ h
      exact ⟨(d, l), hl, rfl, hal⟩
    · rintro ⟨⟨d', l⟩, hp, rfl, hap⟩
      rw [lookupD_eq_of_mem data_source_asset_types (by decide) d' l hp]
      exact hap
  · intro h
    have hnil : lookupD data_source_asset_types d = [] :=
      lookupD_eq_nil_of_not_key _ _ h
    constructor
    · rw [is_valid_asset_for_data_source, hnil]; rfl
    · rw [get_valid_asset_types_for_data_source, hnil]

/-- Witness for C10 at the present pair `("table", "snowflake")` and the
absent data source `"oracle"`. -/
theorem C10_eligibility_indexes_agree_witness :
    (is_valid_asset_for_data_source "table" "snowflake" = true ↔
      "snowflake" ∈ get_valid_data_sources_for_asset_type "table") ∧
    ("oracle" ∉ data_source_asset_types.map Prod.fst ∧
      is_valid_asset_for_data_source "table" "oracle" = false ∧
      get_valid_asset_types_for_data_source "oracle" = []) :=
  ⟨((C10_eligibility_indexes_agree "table" "snowflake").1).trans
      ((C10_eligibility_indexes_agree "table" "snowflake").2.1),
   by decide,
   (C10_eligibility_indexes_agree "table" "oracle").2.2 (by decide)⟩

/-! ## Lemmas about `Graph.add_edge` and `add_edge_with_validation` -/

theorem Graph.add_node_edges (G : Graph) (n : String) (d : NodeData) :
    (G.add_node n d).edges = G.edges := by
  unfold Graph.add_node
  by_cases h : G.hasNode n <;> simp [h]

theorem ite_add_node_edges (G : Graph) (c : Prop) [Decidable c] (n : String) (d : NodeData) :
    (if c then G else G.add_node n d).edges = G.edges := by
  by_cases h : c <;> simp [h, Graph.add_node_edges]

theorem Graph.add_edge_edges (G : Graph) (s t rel : String) :
    (G.add_edge s t rel).edges =
      if G.hasEdge s t then
        G.edges.map (fun e =>
          if e.source == s && e.target == t then { e with relationship := rel } else e)
      else G.edges ++ [⟨s, t, rel⟩] := by
  simp only [Graph.add_edge, Graph.hasEdge, ite_add_node_edges]
  by_cases he : (G.edges.any fun e => e.source == s && e.target == t) = true <;> simp [he]

theorem Graph.add_edge_nodes_of_hasNode (G : Graph) (s t rel : String)
    (hs : G.hasNode s = true) (ht : G.hasNode t = true) :
    (G.add_edge s t rel).nodes = G.nodes := by
  simp only [Graph.add_edge, hs, if_true]
  have ht' : (if G.hasNode s = true then G else G.add_node s {}).hasNode t = true := by
    rw [if_pos hs]; exact ht
  simp only [hs, if_true] at ht'
  simp only [ht', if_true]
  by_cases he : G.hasEdge s t <;> simp [he]

theorem Graph.mem_add_edge_edges (G : Graph) (s t rel : String) (e : Edge)
    (h : e ∈ (G.add_edge s t rel).edges) :
    e ∈ G.edges ∨ (e.source = s ∧ e.target = t ∧ e.relationship = rel) := by
  rw [Graph.add_edge_edges] at h
  by_cases he : G.hasEdge s t
  · rw [if_pos he] at h
    obtain ⟨e0, he0, heq⟩ := List.mem_map.mp h
    by_cases hm : (e0.source == s && e0.target == t) = true
    · rw [if_pos hm] at heq
      subst heq
      simp only [Bool.and_eq_true, beq_iff_eq] at hm
      exact Or.inr ⟨hm.1, hm.2, rfl⟩
    · rw [if_neg hm] at heq
      subst heq
      exact Or.inl he0
  · rw [if_neg he] at h
    rcases List.mem_append.mp h with h1 | h2
    · exact Or.inl h1
    · rcases List.mem_singleton.mp h2 with rfl
      exact Or.inr ⟨rfl, rfl, rfl⟩

theorem Graph.add_edge_edges_length_of_hasEdge (G : Graph) (s t rel : String)
    (he : G.hasEdge s t = true) :
    (G.add_edge s t rel).edges.length = G.edges.length := by
  rw [Graph.add_edge_edges, if_pos he, List.length_map]

/-- Complete case analysis of `add_edge_with_validation` when a concrete
relationship is supplied. -/
theorem aewv_some_eq (G : Graph) (a b rel : String) (s : List Nat) :
    add_edge_with_validation G a b (some rel) s =
      if G.hasNode a && G.hasNode b then
        if is_valid_relationship (G.nodeType a) (G.nodeType b) rel then
          (G.add_edge a b rel, true, s)
        else (G, false, s)
      else (G, false, s) := by
  unfold add_edge_with_validation
  by_cases ha : G.hasNode a <;> by_cases hb : G.hasNode b <;> simp [ha, hb]

/-- Complete case analysis of `add_edge_with_validation` when no
relationship is supplied: a uniform member of the non-empty valid set is
drawn and the call proceeds as if that member had been supplied. -/
theorem aewv_none_eq (G : Graph) (a b : String) (s : List Nat) :
    add_edge_with_validation G a b none s =
      if G.hasNode a && G.hasNode b then
        if (get_valid_relationships (G.nodeType a) (G.nodeType b)).isEmpty then
          (G, false, s)
        else
          add_edge_with_validation G a b
            (some (choiceR (get_valid_relationships (G.nodeType a) (G.nodeType b)) "" s).1)
            (choiceR (get_valid_relationships (G.nodeType a) (G.nodeType b)) "" s).2
      else (G, false, s) := by
  by_cases ha : G.hasNode a
  · by_cases hb : G.hasNode b
    · have hab : (G.hasNode a && G.hasNode b) = true := by rw [ha, hb]; rfl
      conv_lhs => unfold add_edge_with_validation
      rw [if_neg (by rw [ha, hb]; simp), if_pos hab]
      dsimp only
      by_cases hemp : (get_valid_relationships (G.nodeType a) (G.nodeType b)).isEmpty
      · rw [if_pos hemp, if_pos hemp]
      · rw [if_neg hemp, if_neg hemp, aewv_some_eq, if_pos hab]
    · have hb' : G.hasNode b = false := by simpa using hb
      conv_lhs => unfold add_edge_with_validation
      rw [if_pos (by rw [hb']; simp), if_neg (by rw [hb']; simp)]
  · have ha' : G.hasNode a = false := by simpa using ha
    conv_lhs => unfold add_edge_with_validation
    rw [if_pos (by rw [ha']; simp), if_neg (by rw [ha']; simp)]

/-- `add_edge_with_validation` never changes the node list. -/
theorem aewv_nodes (G : Graph) (a b : String) (r : Option String) (s : List Nat) :
    (add_edge_with_validation G a b r s).1.nodes = G.nodes := by
  have hsome : ∀ (rel : String) (s' : List Nat),
      (add_edge_with_validation G a b (some rel) s').1.nodes = G.nodes := by
    intro rel s'
    rw [aewv_some_eq]
    by_cases hab : (G.hasNode a && G.hasNode b) = true
    · rw [if_pos hab]
      rcases Bool.and_eq_true .. |>.mp hab with ⟨ha, hb⟩
      by_cases hv : is_valid_relationship (G.nodeType a) (G.nodeType b) rel
      · rw [if_pos hv]
        exact G.add_edge_nodes_of_hasNode _ _ _ ha hb
      · rw [if_neg hv]
    · rw [if_neg hab]
  rcases r with _ | rel
  · rw [aewv_none_eq]
    by_cases hab : (G.hasNode a && G.hasNode b) = true
    · rw [if_pos hab]
      by_cases hemp : (get_valid_relationships (G.nodeType a) (G.nodeType b)).isEmpty
      · rw [if_pos hemp]
      · rw [if_neg hemp]
        exact hsome _ _
    · rw [if_neg hab]
  · exact hsome rel s

/-- Claim C7: any call to `add_edge_with_validation` in which an
endpoint id is absent, or no relationship is supplied and the valid set
of the endpoint types is empty, or a supplied relationship fails
`is_valid_relationship`, returns `false` and leaves the graph (nodes,
edges and attributes) and the random stream unchanged; being a total
function of the embedding, it raises nothing. -/
theorem C7_edge_rejection_is_noop (G : Graph) (a b : String) (s : List Nat) :
    ((G.hasNode a && G.hasNode b) = false →
      ∀ r : Option String, add_edge_with_validation G a b r s = (G, false, s)) ∧
    (get_valid_relationships (G.nodeType a) (G.nodeType b) = [] →
      add_edge_with_validation G a b none s = (G, false, s)) ∧
    (∀ rel : String,
      is_valid_relationship (G.nodeType a) (G.nodeType b) rel = false →
      add_edge_with_validation G a b (some rel) s = (G, false, s)) := by
  have habs : ∀ (hab : (G.hasNode a && G.hasNode b) = false) (r : Option String),
      add_edge_with_validation G a b r s = (G, false, s) := by
    intro hab r
    have hneg : ¬ ((G.hasNode a && G.hasNode b) = true) := by rw [hab]; simp
    rcases r with _ | rel
    · rw [aewv_none_eq, if_neg hneg]
    · rw [aewv_some_eq, if_neg hneg]
  refine ⟨habs, ?_, ?_⟩
  · intro hnil
    by_cases hab : (G.hasNode a && G.hasNode b) = true
    · rw [aewv_none_eq, if_pos hab, if_pos (by rw [hnil]; rfl)]
    · exact habs (by simpa using hab) none
  · intro rel hv
    by_cases hab : (G.hasNode a && G.hasNode b) = true
    · rw [aewv_some_eq, if_pos hab, if_neg (by rw [hv]; simp)]
    · exact habs (by simpa using hab) (some rel)

/-- Graph with a schema node and a table node, used to witness C7 at
concrete inputs. -/
def C7wG : Graph :=
  (Graph.empty.add_node "s1" { id := some "s1", type_ := some "schema" }).add_node "t1"
    { id := some "t1", type_ := some "table" }

/-- Witness for C7: a missing endpoint, an empty valid set
(schema → table) and an invalid supplied relationship are each rejected
as no-ops on a concrete graph. -/
theorem C7_edge_rejection_is_noop_witness :
    ((C7wG.hasNode "t1" && C7wG.hasNode "zz") = false ∧
      add_edge_with_validation C7wG "t1" "zz" (some "parent_child") [] = (C7wG, false, [])) ∧
    (get_valid_relationships (C7wG.nodeType "s1") (C7wG.nodeType "t1") = [] ∧
      add_edge_with_validation C7wG "s1" "t1" none [] = (C7wG, false, [])) ∧
    (is_valid_relationship (C7wG.nodeType "t1") (C7wG.nodeType "t1") "parent_child" = false ∧
      add_edge_with_validation C7wG "t1" "t1" (some "parent_child") [] = (C7wG, false, [])) :=
  ⟨⟨by decide, (C7_edge_rejection_is_noop C7wG "t1" "zz" []).1 (by decide) (some "parent_child")⟩,
   ⟨by decide, (C7_edge_rejection_is_noop C7wG "s1" "t1" []).2.1 (by decide)⟩,
   ⟨by decide, (C7_edge_rejection_is_noop C7wG "t1" "t1" []).2.2 "parent_child" (by decide)⟩⟩

/-- Graph with a single table node, for the self-loop half of the C3
counterexample. -/
def C3selfG : Graph := Graph.empty.add_node "t" { id := some "t", type_ := some "table" }

/-- Graph with a table, a column and an existing `(t, c)` edge, for the
duplicate half of the C3 counterexample. -/
def C3dupG : Graph :=
  ((Graph.empty.add_node "t" { id := some "t", type_ := some "table" }).add_node "c"
    { id := some "c", type_ := some "column" }).add_edge "t" "c" "parent_child"

/-- Claim C3 counterexample: `add_edge_with_validation` does not reject
self-loops or duplicates.  A self-loop call on a table node returns
`true` and records the loop edge, and a duplicate call on an existing
ordered pair returns `true` instead of `false`. -/
theorem C3_counterexample :
    ((add_edge_with_validation C3selfG "t" "t" (some "depends_on") []).2.1 = true ∧
      (add_edge_with_validation C3selfG "t" "t" (some "depends_on") []).1.edges =
        [⟨"t", "t", "depends_on"⟩]) ∧
    (C3dupG.hasEdge "t" "c" = true ∧
      (add_edge_with_validation C3dupG "t" "c" (some "parent_child") []).2.1 = true) := by
  decide

/-- Claim C3 (amended): `add_edge_with_validation` performs no self-loop
or duplicate check at all — whenever both endpoints exist and the
relationship validates, it returns `true`, even for `src = tgt` and even
when the pair already carries an edge; in the duplicate case it leaves
the node list and the edge count unchanged (the existing edge's
relationship is overwritten), so the at-most-one-edge-per-ordered-pair
property is maintained by the graph structure, not by a rejection. -/
theorem C3_amended_no_self_loop_or_duplicate_rejection (G : Graph) (a b rel : String)
    (s : List Nat) (ha : G.hasNode a = true) (hb : G.hasNode b = true)
    (hv : is_valid_relationship (G.nodeType a) (G.nodeType b) rel = true) :
    (add_edge_with_validation G a b (some rel) s).2.1 = true ∧
    (add_edge_with_validation G a b (some rel) s).1.nodes = G.nodes ∧
    (G.hasEdge a b = true →
      (add_edge_with_validation G a b (some rel) s).1.edges.length = G.edges.length) := by
  have hab : (G.hasNode a && G.hasNode b) = true := by rw [ha, hb]; rfl
  refine ⟨?_, aewv_nodes G a b (some rel) s, ?_⟩
  · rw [aewv_some_eq, if_pos hab, if_pos hv]
  · intro he
    rw [aewv_some_eq, if_pos hab, if_pos hv]
    exact G.add_edge_edges_length_of_hasEdge a b rel he

/-- Witness for the amended C3 at the concrete duplicate graph. -/
theorem C3_amended_witness :
    (C3dupG.hasNode "t" = true ∧ C3dupG.hasNode "c" = true ∧
      is_valid_relationship (C3dupG.nodeType "t") (C3dupG.nodeType "c") "parent_child" = true ∧
      C3dupG.hasEdge "t" "c" = true) ∧
    ((add_edge_with_validation C3dupG "t" "c" (some "parent_child") []).2.1 = true ∧
      (add_edge_with_validation C3dupG "t" "c" (some "parent_child") []).1.edges.length =
        C3dupG.edges.length) :=
  ⟨⟨by decide, by decide, by decide, by decide⟩,
   ⟨(C3_amended_no_self_loop_or_duplicate_rejection C3dupG "t" "c" "parent_child" []
      (by decide) (by decide) (by decide)).1,
    (C3_amended_no_self_loop_or_duplicate_rejection C3dupG "t" "c" "parent_child" []
      (by decide) (by decide) (by decide)).2.2 (by decide)⟩⟩

/-- One run of the streaming factory: team `team_1`, data source
`kafka`, a two-node budget and the all-zero random stream.  It emits one
topic, the topic's schema child, and the direct (unvalidated)
`parent_child` edge between them. -/
def C1run : Graph := (generate_streaming_assets "team_1" "kafka" 0 2 Graph.empty [0, 0]).1

/-- Claim C1 counterexample: the factory-produced graph contains the
topic → schema edge recorded as `parent_child`, yet the Compatibility
Matrix assigns the pair `(topic, schema)` no valid relationship at all
(wildcard fallback included), so this edge violates the claimed
invariant.  The schema → table/view `parent_child` edges of the
database factory bypass validation the same way. -/
theorem C1_counterexample :
    C1run.edges = [⟨"kafka.topic_aaaaaaaa",
      "kafka.topic_aaaaaaaa.topic_aaaaaaaa_schema", "parent_child"⟩] ∧
    C1run.nodeType "kafka.topic_aaaaaaaa" = "topic" ∧
    C1run.nodeType "kafka.topic_aaaaaaaa.topic_aaaaaaaa_schema" = "schema" ∧
    specLookup default_relationships "topic" "schema" = [] ∧
    ¬ "parent_child" ∈ specLookup default_relationships "topic" "schema" := by
  decide

/-- Claim C1 (amended): every edge added through
`add_edge_with_validation` does carry a relationship the Compatibility
Matrix validates for the endpoint types (with wildcard fallback); the
invariant fails only for the direct `G.add_edge` parent-child edges
(schema → table, schema → view, topic → schema), whose type pairs have
an empty valid set. -/
theorem C1_amended_synthesized_edges_validated (G : Graph) (a b : String)
    (r : Option String) (s : List Nat) (G' : Graph) (s' : List Nat)
    (h : add_edge_with_validation G a b r s = (G', true, s')) :
    ∃ rel, G' = G.add_edge a b rel ∧
      is_valid_relationship (G.nodeType a) (G.nodeType b) rel = true ∧
      rel ∈ specLookup default_relationships (G.nodeType a) (G.nodeType b) := by
  have key : ∀ (rel : String) (s0 s1 : List Nat),
      add_edge_with_validation G a b (some rel) s0 = (G', true, s1) →
      ∃ rel', G' = G.add_edge a b rel' ∧
        is_valid_relationship (G.nodeType a) (G.nodeType b) rel' = true ∧
        rel' ∈ specLookup default_relationships (G.nodeType a) (G.nodeType b) := by
    intro rel s0 s1 hs
    rw [aewv_some_eq] at hs
    by_cases hab : (G.hasNode a && G.hasNode b) = true
    · rw [if_pos hab] at hs
      by_cases hv : is_valid_relationship (G.nodeType a) (G.nodeType b) rel = true
      · rw [if_pos hv] at hs
        simp only [Prod.mk.injEq] at hs
        refine ⟨rel, hs.1.symm, hv, ?_⟩
        have := generator_is_valid_eq_specLookup (G.nodeType a) (G.nodeType b) rel
        rw [hv] at this
        exact List.elem_iff.mp this.symm
      · rw [if_neg hv] at hs
        simp only [Prod.mk.injEq] at hs
        exact absurd hs.2.1 (by simp)
    · rw [if_neg hab] at hs
      simp only [Prod.mk.injEq] at hs
      exact absurd hs.2.1 (by simp)
  rcases r with _ | rel
  · rw [aewv_none_eq] at h
    by_cases hab : (G.hasNode a && G.hasNode b) = true
    · rw [if_pos hab] at h
      by_cases hemp : (get_valid_relationships (G.nodeType a) (G.nodeType b)).isEmpty
      · rw [if_pos hemp] at h
        simp only [Prod.mk.injEq] at h
        exact absurd h.2.1 (by simp)
      · rw [if_neg hemp] at h
        exact key _ _ _ h
    · rw [if_neg hab] at h
      simp only [Prod.mk.injEq] at h
      exact absurd h.2.1 (by simp)
  · exact key rel s s' h

/-- Graph with a table node and a column node, witnessing the amended
C1 at a concrete successful call. -/
def C1wG : Graph :=
  (Graph.empty.add_node "t" { id := some "t", type_ := some "table" }).add_node "c"
    { id := some "c", type_ := some "column" }

/-- Witness for the amended C1. -/
theorem C1_amended_witness :
    (add_edge_with_validation C1wG "t" "c" (some "parent_child") [] =
      (C1wG.add_edge "t" "c" "parent_child", true, [])) ∧
    (∃ rel, C1wG.add_edge "t" "c" "parent_child" = C1wG.add_edge "t" "c" rel ∧
      is_valid_relationship (C1wG.nodeType "t") (C1wG.nodeType "c") rel = true ∧
      rel ∈ specLookup default_relationships (C1wG.nodeType "t") (C1wG.nodeType "c")) :=
  ⟨by decide,
   C1_amended_synthesized_edges_validated C1wG "t" "c" (some "parent_child") []
     (C1wG.add_edge "t" "c" "parent_child") [] (by decide)⟩

/-! ## The supplemental edge pass: bounds and validity (C9) -/

/-- The filter the supplemental edge pass applies to a candidate pair:
both endpoints eligible for their own recorded data source, and the
relationship validated by the Compatibility Matrix. -/
def eligibleValidated (G : Graph) (e : Edge) : Prop :=
  is_valid_asset_for_data_source (G.nodeType e.source) (G.nodeDataSource e.source) = true ∧
  is_valid_asset_for_data_source (G.nodeType e.target) (G.nodeDataSource e.target) = true ∧
  is_valid_relationship (G.nodeType e.source) (G.nodeType e.target) e.relationship = true

theorem Graph.nodeType_congr (G G' : Graph) (h : G'.nodes = G.nodes) (n : String) :
    G'.nodeType n = G.nodeType n := by
  unfold Graph.nodeType Graph.getNode
  rw [h]

theorem Graph.nodeDataSource_congr (G G' : Graph) (h : G'.nodes = G.nodes) (n : String) :
    G'.nodeDataSource n = G.nodeDataSource n := by
  unfold Graph.nodeDataSource Graph.getNode
  rw [h]

theorem eligibleValidated_congr (G G' : Graph) (h : G'.nodes = G.nodes) (e : Edge) :
    eligibleValidated G' e ↔ eligibleValidated G e := by
  unfold eligibleValidated
  rw [Graph.nodeType_congr G G' h, Graph.nodeType_congr G G' h,
    Graph.nodeDataSource_congr G G' h, Graph.nodeDataSource_congr G G' h]

/-- A failing `add_edge_with_validation` call returns the graph
unchanged. -/
theorem aewv_false_graph (G : Graph) (a b : String) (r : Option String) (s : List Nat)
    (h : (add_edge_with_validation G a b r s).2.1 = false) :
    (add_edge_with_validation G a b r s).1 = G := by
  have hsome : ∀ (rel : String) (s0 : List Nat),
      (add_edge_with_validation G a b (some rel) s0).2.1 = false →
      (add_edge_with_validation G a b (some rel) s0).1 = G := by
    intro rel s0 hf
    rw [aewv_some_eq] at hf ⊢
    by_cases hab : (G.hasNode a && G.hasNode b) = true
    · rw [if_pos hab] at hf ⊢
      by_cases hv : is_valid_relationship (G.nodeType a) (G.nodeType b) rel = true
      · rw [if_pos hv] at hf; cases hf
      · rw [if_neg hv]
    · rw [if_neg hab]
  rcases r with _ | rel
  · rw [aewv_none_eq] at h ⊢
    by_cases hab : (G.hasNode a && G.hasNode b) = true
    · rw [if_pos hab] at h ⊢
      by_cases hemp : (get_valid_relationships (G.nodeType a) (G.nodeType b)).isEmpty
      · rw [if_pos hemp]
      · rw [if_neg hemp] at h ⊢
        exact hsome _ _ h
    · rw [if_neg hab]
  · exact hsome rel s h

/-- A successful `add_edge_with_validation` call with a supplied
relationship is exactly `Graph.add_edge` on a validated triple. -/
theorem aewv_some_true (G : Graph) (a b rel : String) (s : List Nat)
    (hab : (G.hasNode a && G.hasNode b) = true)
    (hv : is_valid_relationship (G.nodeType a) (G.nodeType b) rel = true) :
    add_edge_with_validation G a b (some rel) s = (G.add_edge a b rel, true, s) := by
  rw [aewv_some_eq, if_pos hab, if_pos hv]

/-- Full invariant of one run of the `while` loop of
`_add_additional_edges`, relative to the graph the run started from. -/
def edgeLoopSpec (count : Nat) (G : Graph) (edges_added attempts fuel : Nat)
    (R : Graph × Nat × Nat × List Nat) : Prop :=
  R.1.nodes = G.nodes ∧
  R.2.1 ≤ count ∧
  (R.2.1 = count ∨ R.2.2.1 = attempts + fuel) ∧
  R.2.2.1 ≤ attempts + fuel ∧
  R.1.edges.length + edges_added = G.edges.length + R.2.1 ∧
  (∀ e ∈ R.1.edges, e ∈ G.edges ∨ eligibleValidated G e)

/-- Inversion of a successful supplied-relationship call. -/
theorem aewv_some_true_inv (G : Graph) (a b rel : String) (s : List Nat)
    (h : (add_edge_with_validation G a b (some rel) s).2.1 = true) :
    (G.hasNode a && G.hasNode b) = true ∧
    is_valid_relationship (G.nodeType a) (G.nodeType b) rel = true ∧
    (add_edge_with_validation G a b (some rel) s).1 = G.add_edge a b rel := by
  rw [aewv_some_eq] at h ⊢
  by_cases hab : (G.hasNode a && G.hasNode b) = true
  · rw [if_pos hab] at h ⊢
    by_cases hv : is_valid_relationship (G.nodeType a) (G.nodeType b) rel = true
    · rw [if_pos hv]
      exact ⟨hab, hv, rfl⟩
    · rw [if_neg hv] at h; cases h
  · rw [if_neg hab] at h; cases h

theorem edgeLoopSpec_shift (count : Nat) (G : Graph) (ea at0 fuel : Nat)
    (R : Graph × Nat × Nat × List Nat)
    (h : edgeLoopSpec count G ea (at0 + 1) fuel R) :
    edgeLoopSpec count G ea at0 (fuel + 1) R := by
  obtain ⟨h1, h2, h3, h4, h5, h6⟩ := h
  refine ⟨h1, h2, ?_, by omega, h5, h6⟩
  rcases h3 with h3 | h3
  · exact Or.inl h3
  · exact Or.inr (by omega)

/-- The spec carries over one successful edge addition. -/
theorem edgeLoopSpec_step_add (count : Nat) (G : Graph) (ea at0 fuel : Nat)
    {src tgt rel : String} (R : Graph × Nat × Nat × List Nat)
    (h : edgeLoopSpec count (G.add_edge src tgt rel) (ea + 1) (at0 + 1) fuel R)
    (hs : G.hasNode src = true) (ht : G.hasNode tgt = true)
    (hdup : G.hasEdge src tgt = false)
    (he1 : is_valid_asset_for_data_source (G.nodeType src) (G.nodeDataSource src) = true)
    (he2 : is_valid_asset_for_data_source (G.nodeType tgt) (G.nodeDataSource tgt) = true)
    (hv : is_valid_relationship (G.nodeType src) (G.nodeType tgt) rel = true) :
    edgeLoopSpec count G ea at0 (fuel + 1) R := by
  obtain ⟨h1, h2, h3, h4, h5, h6⟩ := h
  have hnodes : (G.add_edge src tgt rel).nodes = G.nodes :=
    G.add_edge_nodes_of_hasNode src tgt rel hs ht
  have hedges : (G.add_edge src tgt rel).edges = G.edges ++ [⟨src, tgt, rel⟩] := by
    rw [Graph.add_edge_edges, if_neg (by rw [hdup]; simp)]
  refine ⟨h1.trans hnodes, h2, ?_, by omega, ?_, ?_⟩
  · rcases h3 with h3 | h3
    · exact Or.inl h3
    · exact Or.inr (by omega)
  · rw [hedges] at h5
    simp only [List.length_append, List.length_singleton] at h5
    omega
  · intro e he
    rcases h6 e he with hmem | helig'
    · rw [hedges] at hmem
      rcases List.mem_append.mp hmem with hmem | hnew
      · exact Or.inl hmem
      · rcases List.mem_singleton.mp hnew with rfl
        exact Or.inr ⟨he1, he2, hv⟩
    · exact Or.inr ((eligibleValidated_congr G _ hnodes e).mp helig')

theorem add_additional_edges_loop_spec (nodes : List String) (count : Nat) :
    ∀ (fuel : Nat) (G : Graph) (edges_added attempts : Nat) (s : List Nat),
      edges_added ≤ count →
      edgeLoopSpec count G edges_added attempts fuel
        (add_additional_edges_loop nodes count G edges_added attempts fuel s) := by
  intro fuel
  induction fuel with
  | zero =>
    intro G ea at0 s hle
    simp only [add_additional_edges_loop]
    exact ⟨rfl, hle, Or.inr rfl, Nat.le_refl _, rfl, fun e he => Or.inl he⟩
  | succ fuel ih =>
    intro G ea at0 s hle
    rw [add_additional_edges_loop]
    by_cases hstop : count ≤ ea
    · rw [if_pos hstop]
      refine ⟨rfl, hle, Or.inl ?_, ?_, rfl, fun e he => Or.inl he⟩
      · exact Nat.le_antisymm hle hstop
      · show at0 ≤ at0 + (fuel + 1)
        omega
    · rw [if_neg hstop]
      dsimp only
      split_ifs with h1 h2 h3 h4 h5
      · exact edgeLoopSpec_shift count G ea at0 fuel _ (ih G ea (at0 + 1) _ hle)
      · exact edgeLoopSpec_shift count G ea at0 fuel _ (ih G ea (at0 + 1) _ hle)
      · exact edgeLoopSpec_shift count G ea at0 fuel _ (ih G ea (at0 + 1) _ hle)
      · exact edgeLoopSpec_shift count G ea at0 fuel _ (ih G ea (at0 + 1) _ hle)
      · -- a successful addition
        obtain ⟨hab, hv, hG'⟩ := aewv_some_true_inv G _ _ _ _ h5
        obtain ⟨hsn, htn⟩ := Bool.and_eq_true .. |>.mp hab
        rw [Bool.not_eq_true] at h2
        rw [Bool.not_eq_true, Bool.or_eq_false_iff, Bool.not_eq_false',
          Bool.not_eq_false'] at h3
        rw [hG']
        exact edgeLoopSpec_step_add count G ea at0 fuel _
          (ih _ (ea + 1) (at0 + 1) _ (by omega)) hsn htn h2 h3.1 h3.2 hv
      · -- the call failed: the graph is unchanged
        have hG' := aewv_false_graph G _ _ _ _ (by simpa using h5)
        rw [hG']
        exact edgeLoopSpec_shift count G ea at0 fuel _ (ih G ea (at0 + 1) _ hle)

/-- Claim C9: for every requested shortfall `count`, the supplemental
edge pass performs at most `10 * count` sampling attempts, stops as soon
as `count` edges are added (it can only end at the target, with the
attempt budget exhausted, or on the trivial under-two-node graph), never
adds more than `count` edges, changes no node, raises nothing (it is a
total function), and every edge it adds has endpoints eligible for their
own recorded data sources and a matrix-validated relationship. -/
theorem C9_supplemental_edge_pass_bounded_and_validated (G : Graph) (count : Nat)
    (s : List Nat) :
    (add_additional_edges G count s).1.nodes = G.nodes ∧
    (add_additional_edges G count s).2.1 ≤ count ∧
    (add_additional_edges G count s).2.2.1 ≤ count * 10 ∧
    ((add_additional_edges G count s).2.1 = count ∨
      (add_additional_edges G count s).2.2.1 = count * 10 ∨ G.nodes.length < 2) ∧
    (add_additional_edges G count s).1.edges.length =
      G.edges.length + (add_additional_edges G count s).2.1 ∧
    (∀ e ∈ (add_additional_edges G count s).1.edges,
      e ∈ G.edges ∨ eligibleValidated G e) := by
  unfold add_additional_edges
  by_cases hsmall : G.keys.length < 2
  · rw [if_pos hsmall]
    refine ⟨rfl, Nat.zero_le _, Nat.zero_le _, Or.inr (Or.inr ?_), rfl,
      fun e he => Or.inl he⟩
    simpa [Graph.keys] using hsmall
  · rw [if_neg hsmall]
    obtain ⟨h1, h2, h3, h4, h5, h6⟩ :=
      add_additional_edges_loop_spec G.keys count (count * 10) G 0 0 s (Nat.zero_le _)
    refine ⟨h1, h2, by simpa using h4, ?_, by simpa using h5, h6⟩
    rcases h3 with h3 | h3
    · exact Or.inl h3
    · exact Or.inr (Or.inl (by simpa using h3))

/-- A two-node graph (an eligible table and column on `snowflake`) for
the C9 witness. -/
def C9wG : Graph :=
  (Graph.empty.add_node "t"
      { id := some "t", type_ := some "table", data_source := some "snowflake" }).add_node
    "c" { id := some "c", type_ := some "column", data_source := some "snowflake" }

/-- Witness for C9: on a concrete two-node graph and stream the pass
adds exactly the one requested edge in one attempt, and that edge
satisfies the eligibility/validity filter. -/
theorem C9_witness :
    (add_additional_edges C9wG 1 [0, 1, 0]).1.edges = [⟨"t", "c", "parent_child"⟩] ∧
    (⟨"t", "c", "parent_child"⟩ : Edge) ∈ (add_additional_edges C9wG 1 [0, 1, 0]).1.edges ∧
    ((⟨"t", "c", "parent_child"⟩ : Edge) ∈ C9wG.edges ∨
      eligibleValidated C9wG ⟨"t", "c", "parent_child"⟩) :=
  ⟨by decide, by decide,
   (C9_supplemental_edge_pass_bounded_and_validated C9wG 1 [0, 1, 0]).2.2.2.2.2 _ (by decide)⟩

/-! ## The supplemental node pass: delivery accounting (C5) -/

theorem Graph.hasNode_iff_mem_keys (G : Graph) (n : String) :
    G.hasNode n = true ↔ n ∈ G.keys := by
  unfold Graph.hasNode Graph.keys
  rw [List.any_eq_true]
  constructor
  · rintro ⟨p, hp, hb⟩
    exact List.mem_map.mpr ⟨p, hp, by simpa using hb⟩
  · intro h
    obtain ⟨p, hp, he⟩ := List.mem_map.mp h
    exact ⟨p, hp, by simpa using he⟩

theorem Graph.add_node_keys_of_fresh (G : Graph) (n : String) (d : NodeData)
    (h : G.hasNode n = false) : (G.add_node n d).keys = G.keys ++ [n] := by
  unfold Graph.add_node
  rw [if_neg (by rw [h]; simp)]
  unfold Graph.keys
  simp

theorem additional_node_edge_step_nodes (a i : String) (q : Graph × List Nat)
    (t : String) : (additional_node_edge_step a i q t).1.nodes = q.1.nodes := by
  unfold additional_node_edge_step
  by_cases h : (get_valid_relationships a (q.1.nodeType t)).isEmpty
  · rw [if_pos h]
  · rw [if_neg h]
    exact aewv_nodes _ _ _ _ _

theorem foldl_edge_step_nodes (a i : String) :
    ∀ (l : List String) (q : Graph × List Nat),
      (l.foldl (additional_node_edge_step a i) q).1.nodes = q.1.nodes := by
  intro l
  induction l with
  | nil => intro q; rfl
  | cons t l ih =>
    intro q
    rw [List.foldl_cons, ih, additional_node_edge_step_nodes]

/-- Accounting for one team's inner loop: it records exactly `n` drawn
ids, and when those ids are pairwise distinct and fresh the node-key
list grows by exactly those ids. -/
theorem add_additional_nodes_team_spec (team_id ds_id : String) (vats : List String) :
    ∀ (n : Nat) (G : Graph) (ids : List String) (s : List Nat),
      ∃ D : List String,
        (add_additional_nodes_team team_id ds_id vats n G ids s).2.1 = ids ++ D ∧
        D.length = n ∧
        (D.Nodup → (∀ x ∈ D, x ∉ G.keys) →
          (add_additional_nodes_team team_id ds_id vats n G ids s).1.keys = G.keys ++ D) := by
  intro n
  induction n with
  | zero =>
    intro G ids s
    exact ⟨[], by simp [add_additional_nodes_team], rfl,
      fun _ _ => by simp [add_additional_nodes_team]⟩
  | succ n ih =>
    intro G ids s
    rw [add_additional_nodes_team]
    dsimp only
    set asset_id := "additional." ++ team_id ++ "." ++ (choiceR vats "" s).1 ++ "." ++
      random_name (choiceR vats "" s).1 (take1 (choiceR vats "" s).2).1 with haid
    set G1 := G.add_node asset_id
      (additionalNodeData asset_id (choiceR vats "" s).1 ds_id team_id) with hG1
    obtain ⟨G2, s3, hG2nodes⟩ : ∃ (G2 : Graph) (s3 : List Nat),
        (if ((G1.nodes.filter (fun p =>
            p.2.team == some team_id && p.2.id != some asset_id)).map Prod.fst).isEmpty
          then (G1, (take1 (choiceR vats "" s).2).2)
          else
            let cc := randintR 1 3 (take1 (choiceR vats "" s).2).2
            let connection_count := min cc.1 ((G1.nodes.filter (fun p =>
              p.2.team == some team_id && p.2.id != some asset_id)).map Prod.fst).length
            let tg := sampleR ((G1.nodes.filter (fun p =>
              p.2.team == some team_id && p.2.id != some asset_id)).map Prod.fst)
              connection_count cc.2
            tg.1.foldl (additional_node_edge_step (choiceR vats "" s).1 asset_id)
              (G1, tg.2)) = (G2, s3) ∧ G2.nodes = G1.nodes := by
      by_cases hemp : ((G1.nodes.filter (fun p =>
          p.2.team == some team_id && p.2.id != some asset_id)).map Prod.fst).isEmpty
      · rw [if_pos hemp]
        exact ⟨G1, _, rfl, rfl⟩
      · rw [if_neg hemp]
        refine ⟨_, _, rfl, ?_⟩
        exact foldl_edge_step_nodes _ _ _ _
    rw [hG2nodes.1]
    obtain ⟨D', hids, hlen, hkeys⟩ := ih G2 (ids ++ [asset_id]) s3
    refine ⟨asset_id :: D', by rw [hids]; simp, by simp [hlen], ?_⟩
    intro hnd hfresh
    have hfreshG : G.hasNode asset_id = false := by
      rcases Bool.eq_false_or_eq_true (G.hasNode asset_id) with ht | hf
      · exact absurd ((G.hasNode_iff_mem_keys asset_id).mp ht)
          (hfresh asset_id (List.mem_cons_self _ _))
      · exact hf
    have hkeysG1 : G1.keys = G.keys ++ [asset_id] :=
      G.add_node_keys_of_fresh asset_id _ hfreshG
    have hkeysG2 : G2.keys = G.keys ++ [asset_id] := by
      unfold Graph.keys
      rw [hG2nodes.2]
      exact hkeysG1
    have hfresh2 : ∀ x ∈ D', x ∉ G2.keys := by
      intro x hx
      rw [hkeysG2]
      intro hmem
      rcases List.mem_append.mp hmem with hmem | hone
      · exact hfresh x (List.mem_cons_of_mem _ hx) hmem
      · rcases List.mem_singleton.mp hone with rfl
        exact (List.nodup_cons.mp hnd).1 hx
    rw [hkeys (List.Nodup.of_cons hnd) hfresh2, hkeysG2]
    simp

/-- Accounting for the whole `for team in self.teams` walk: when every
team sees a usable data source, the recorded ids number exactly the
allocation total, and distinct fresh ids are all delivered as new
node keys. -/
theorem add_additional_nodes_go_spec (cfg : Config)
    (hds : cfg.data_sources.filter (fun d =>
      !(get_valid_asset_types_for_data_source d).isEmpty) ≠ []) :
    ∀ (al : List (String × Nat)) (G : Graph) (ids : List String) (s : List Nat),
      ∃ D : List String,
        (add_additional_nodes_go cfg al G ids s).2.1 = ids ++ D ∧
        D.length = (al.map Prod.snd).sum ∧
        (D.Nodup → (∀ x ∈ D, x ∉ G.keys) →
          (add_additional_nodes_go cfg al G ids s).1.keys = G.keys ++ D) := by
  intro al
  induction al with
  | nil =>
    intro G ids s
    exact ⟨[], by simp [add_additional_nodes_go], rfl,
      fun _ _ => by simp [add_additional_nodes_go]⟩
  | cons p rest ih =>
    obtain ⟨team_id, k⟩ := p
    intro G ids s
    rw [add_additional_nodes_go]
    by_cases hk : (k == 0) = true
    · rw [if_pos hk]
      obtain ⟨D, h1, h2, h3⟩ := ih G ids s
      refine ⟨D, h1, ?_, h3⟩
      rw [h2]
      have hk0 : k = 0 := by simpa using hk
      simp [hk0]
    · rw [if_neg hk]
      dsimp only
      rw [if_neg (by simpa [List.isEmpty_iff] using hds)]
      have hmem := choiceR_fst_mem (cfg.data_sources.filter (fun d =>
        !(get_valid_asset_types_for_data_source d).isEmpty)) "" s hds
      have htypes : ¬ (get_valid_asset_types_for_data_source
          (choiceR (cfg.data_sources.filter (fun d =>
            !(get_valid_asset_types_for_data_source d).isEmpty)) "" s).1).isEmpty = true := by
        have := List.of_mem_filter hmem
        simpa using this
      rw [if_neg htypes]
      obtain ⟨D1, ht1, ht2, ht3⟩ := add_additional_nodes_team_spec team_id _ _ k G ids _
      rw [ht1]
      obtain ⟨D2, h1, h2, h3⟩ := ih _ (ids ++ D1) _
      refine ⟨D1 ++ D2, by rw [h1, List.append_assoc], by simp [ht2, h2], ?_⟩
      intro hnd hfresh
      have hnd1 : D1.Nodup := (List.nodup_append.mp hnd).1
      have hnd2 : D2.Nodup := (List.nodup_append.mp hnd).2.1
      have hdisj := (List.nodup_append.mp hnd).2.2
      have hfresh1 : ∀ x ∈ D1, x ∉ G.keys := fun x hx =>
        hfresh x (List.mem_append.mpr (Or.inl hx))
      have hk1 := ht3 hnd1 hfresh1
      have hfresh2 : ∀ x ∈ D2, x ∉ (add_additional_nodes_team team_id
          (choiceR (cfg.data_sources.filter (fun d =>
            !(get_valid_asset_types_for_data_source d).isEmpty)) "" s).1
          (get_valid_asset_types_for_data_source
            (choiceR (cfg.data_sources.filter (fun d =>
              !(get_valid_asset_types_for_data_source d).isEmpty)) "" s).1)
          k G ids (choiceR (cfg.data_sources.filter (fun d =>
            !(get_valid_asset_types_for_data_source d).isEmpty)) "" s).2).1.keys := by
        intro x hx
        rw [hk1]
        intro hmem
        rcases List.mem_append.mp hmem with hm | hm
        · exact hfresh x (List.mem_append.mpr (Or.inr hx)) hm
        · exact hdisj hm hx
      rw [h3 hnd2 hfresh2, hk1, List.append_assoc]

theorem bumpAt_length : ∀ (al : List (String × Nat)) (i : Nat),
    (bumpAt al i).length = al.length := by
  intro al
  induction al with
  | nil => intro i; cases i <;> rfl
  | cons p rest ih =>
    intro i
    cases i with
    | zero => rfl
    | succ i => simp [bumpAt, ih]

theorem bumpAt_sum : ∀ (al : List (String × Nat)) (i : Nat), i < al.length →
    ((bumpAt al i).map Prod.snd).sum = ((al.map Prod.snd).sum) + 1 := by
  intro al
  induction al with
  | nil => intro i h; cases h
  | cons p rest ih =>
    intro i h
    cases i with
    | zero => simp [bumpAt]; omega
    | succ i =>
      have := ih i (by simpa using h)
      simp [bumpAt, this]
      omega

theorem bump_fold_length (L : Nat) :
    ∀ (extra : Nat) (al : List (String × Nat)),
      ((List.range extra).foldl (fun a i => bumpAt a (i % L)) al).length = al.length := by
  intro extra
  induction extra with
  | zero => intro al; rfl
  | succ extra ih =>
    intro al
    rw [List.range_succ, List.foldl_append, List.foldl_cons, List.foldl_nil,
      bumpAt_length, ih]

theorem bump_fold_sum (L : Nat) (hL : 0 < L) :
    ∀ (extra : Nat) (al : List (String × Nat)), al.length = L →
      ((((List.range extra).foldl (fun a i => bumpAt a (i % L)) al)).map Prod.snd).sum =
        (al.map Prod.snd).sum + extra := by
  intro extra
  induction extra with
  | zero => intro al _; rfl
  | succ extra ih =>
    intro al hal
    rw [List.range_succ, List.foldl_append, List.foldl_cons, List.foldl_nil,
      bumpAt_sum _ _ (by rw [bump_fold_length, hal]; exact Nat.mod_lt _ hL), ih al hal]
    omega

theorem sum_map_const_nat {α : Type} (l : List α) (q : Nat) :
    (l.map (fun _ => q)).sum = l.length * q := by
  induction l with
  | nil => simp
  | cons a l ih => simp [ih, Nat.succ_mul]; omega

/-- The team allocation of `_add_additional_nodes(count)` sums to
`count`. -/
theorem team_allocation_sum (cfg : Config) (count : Nat) (hteams : cfg.teams ≠ []) :
    ((((List.range (count % cfg.teams.length)).foldl
        (fun al i => bumpAt al (i % cfg.teams.length))
        (cfg.teams.map (fun t => (t, count / cfg.teams.length))))).map Prod.snd).sum =
      count := by
  have hL : 0 < cfg.teams.length := List.length_pos.mpr hteams
  rw [bump_fold_sum _ hL _ _ (by rw [List.length_map])]
  rw [List.map_map]
  have hcomp : (Prod.snd ∘ fun t : String => (t, count / cfg.teams.length)) =
      (fun _ : String => count / cfg.teams.length) := rfl
  rw [hcomp, sum_map_const_nat]
  have := Nat.div_add_mod count cfg.teams.length
  omega

/-- One-team configuration used by the C5 counterexample and witness. -/
def cfgC5 : Config :=
  { min_nodes := 2, edge_multiplier := 1, orphaned_node_pct := 10,
    disconnected_subgraphs := 0, teams := ["team_1"], data_sources := ["snowflake"] }

/-- Claim C5 counterexample: with a one-team catalog, a shortfall of 2
and a random stream that draws the same asset name twice, the pass
attempts two ids but the second `add_node` merges into the first
(networkx does not create a second node), so only one node is delivered
and the shortfall is not fully delivered. -/
theorem C5_counterexample :
    (add_additional_nodes cfgC5 Graph.empty 2 [0, 0, 7, 0, 7]).2.1 =
      ["additional.team_1.schema.schema_haaaaaaa",
       "additional.team_1.schema.schema_haaaaaaa"] ∧
    (add_additional_nodes cfgC5 Graph.empty 2 [0, 0, 7, 0, 7]).1.nodes.length = 1 ∧
    1 < Graph.empty.nodes.length + 2 := by
  decide

/-- Claim C5 (amended): the supplemental node pass delivers its full
shortfall — the graph ends with exactly `old + count` nodes, hence at
least `minNodes` — for every non-empty team catalog and every random
stream whose drawn asset ids are pairwise distinct and absent from the
graph; a stream that repeats an id under-delivers silently (see the
counterexample). -/
theorem C5_amended_full_delivery_without_collisions (cfg : Config) (G : Graph)
    (count : Nat) (s : List Nat)
    (hteams : cfg.teams ≠ [])
    (hds : cfg.data_sources.filter (fun d =>
      !(get_valid_asset_types_for_data_source d).isEmpty) ≠ [])
    (hnodup : (add_additional_nodes cfg G count s).2.1.Nodup)
    (hfresh : ∀ x ∈ (add_additional_nodes cfg G count s).2.1, G.hasNode x = false) :
    (add_additional_nodes cfg G count s).1.nodes.length = G.nodes.length + count := by
  obtain ⟨D, h1, h2, h3⟩ := add_additional_nodes_go_spec cfg hds
    ((List.range (count % cfg.teams.length)).foldl
      (fun al i => bumpAt al (i % cfg.teams.length))
      (cfg.teams.map (fun t => (t, count / cfg.teams.length)))) G [] s
  have hrun : add_additional_nodes cfg G count s =
      add_additional_nodes_go cfg
        ((List.range (count % cfg.teams.length)).foldl
          (fun al i => bumpAt al (i % cfg.teams.length))
          (cfg.teams.map (fun t => (t, count / cfg.teams.length)))) G [] s := rfl
  rw [hrun] at hnodup hfresh ⊢
  rw [h1, List.nil_append] at hnodup hfresh
  have hsum : D.length = count := by
    rw [h2, team_allocation_sum cfg count hteams]
  have hfresh' : ∀ x ∈ D, x ∉ G.keys := by
    intro x hx hmem
    have := hfresh x hx
    rw [(G.hasNode_iff_mem_keys x).mpr hmem] at this
    cases this
  have hkeys := h3 hnodup hfresh'
  have hlen1 : (add_additional_nodes_go cfg
      ((List.range (count % cfg.teams.length)).foldl
        (fun al i => bumpAt al (i % cfg.teams.length))
        (cfg.teams.map (fun t => (t, count / cfg.teams.length)))) G [] s).1.keys.length =
      G.keys.length + D.length := by
    rw [hkeys, List.length_append]
  unfold Graph.keys at hlen1
  rw [List.length_map, List.length_map] at hlen1
  rw [hlen1, hsum]

/-- Witness for the amended C5: a collision-free stream delivers both
requested nodes. -/
theorem C5_amended_witness :
    (cfgC5.teams ≠ [] ∧
     cfgC5.data_sources.filter (fun d =>
       !(get_valid_asset_types_for_data_source d).isEmpty) ≠ [] ∧
     (add_additional_nodes cfgC5 Graph.empty 2 [0, 0, 7, 0, 2]).2.1.Nodup ∧
     (∀ x ∈ (add_additional_nodes cfgC5 Graph.empty 2 [0, 0, 7, 0, 2]).2.1,
       Graph.empty.hasNode x = false)) ∧
    (add_additional_nodes cfgC5 Graph.empty 2 [0, 0, 7, 0, 2]).1.nodes.length =
      Graph.empty.nodes.length + 2 :=
  ⟨⟨by decide, by decide, by decide, by decide⟩,
   C5_amended_full_delivery_without_collisions cfgC5 Graph.empty 2 [0, 0, 7, 0, 2]
     (by decide) (by decide) (by decide) (by decide)⟩

/-! ## The Usage-Score Assigner: bucket accounting (C8) -/

/-- The legal score set of the spec: the sentinel or one of the three
usage ranges. -/
def scoreOk (v : Int) : Prop :=
  v = -1 ∨ (1 ≤ v ∧ v ≤ 39) ∨ (40 ≤ v ∧ v ≤ 69) ∨ (70 ≤ v ∧ v ≤ 100)

def scoreInHeavy : Option Int → Bool
  | some v => decide (70 ≤ v ∧ v ≤ 100)
  | none => false

def scoreInModerate : Option Int → Bool
  | some v => decide (40 ≤ v ∧ v ≤ 69)
  | none => false

def scoreInLight : Option Int → Bool
  | some v => decide (1 ≤ v ∧ v ≤ 39)
  | none => false

def scoreInNoUsage : Option Int → Bool
  | some v => decide (v = -1)
  | none => false

/-- Number of node records whose score satisfies `p`. -/
def countBy (G : Graph) (p : Option Int → Bool) : Nat :=
  (G.nodes.filter (fun q => p q.2.score)).length

/-- Which bucket position `i` falls into, following the if-chain of
`_assign_scores`. -/
def bucketOk (heavy moderate light i : Nat) (v : Int) : Prop :=
  if i < heavy then 70 ≤ v ∧ v ≤ 100
  else if i < heavy + moderate then 40 ≤ v ∧ v ≤ 69
  else if i < heavy + moderate + light then 1 ≤ v ∧ v ≤ 39
  else v = -1

theorem drawScore_ok (heavy moderate light i : Nat) (s : List Nat) :
    bucketOk heavy moderate light i (drawScore heavy moderate light i s).1 := by
  unfold drawScore bucketOk randintR
  by_cases h1 : i < heavy
  · rw [if_pos h1, if_pos h1]
    have := Nat.mod_lt (take1 s).1 (y := 100 + 1 - 70) (by omega)
    constructor <;> [skip; skip] <;> simp only <;> omega
  · rw [if_neg h1, if_neg h1]
    by_cases h2 : i < heavy + moderate
    · rw [if_pos h2, if_pos h2]
      have := Nat.mod_lt (take1 s).1 (y := 69 + 1 - 40) (by omega)
      constructor <;> simp only <;> omega
    · rw [if_neg h2, if_neg h2]
      by_cases h3 : i < heavy + moderate + light
      · rw [if_pos h3, if_pos h3]
        have := Nat.mod_lt (take1 s).1 (y := 39 + 1 - 1) (by omega)
        constructor <;> simp only <;> omega
      · rw [if_neg h3, if_neg h3]

theorem bucketOk_scoreOk (heavy moderate light i : Nat) (v : Int)
    (h : bucketOk heavy moderate light i v) : scoreOk v := by
  unfold bucketOk at h
  unfold scoreOk
  split_ifs at h <;> tauto

theorem bucketOk_flags (heavy moderate light i : Nat) (v : Int)
    (h : bucketOk heavy moderate light i v) :
    scoreInHeavy (some v) = decide (i < heavy) ∧
    scoreInModerate (some v) = decide (¬ i < heavy ∧ i < heavy + moderate) ∧
    scoreInLight (some v) = decide (¬ i < heavy + moderate ∧
      i < heavy + moderate + light) ∧
    scoreInNoUsage (some v) = decide (heavy + moderate + light ≤ i) := by
  unfold bucketOk at h
  unfold scoreInHeavy scoreInModerate scoreInLight scoreInNoUsage
  split_ifs at h with h1 h2 h3 <;>
    refine ⟨?_, ?_, ?_, ?_⟩ <;> rw [decide_eq_decide] <;> omega

/-- Number of positions in `[i, i + len)` satisfying `P`. -/
def cntWin (P : Nat → Bool) : Nat → Nat → Nat
  | _, 0 => 0
  | i, len + 1 => (if P i then 1 else 0) + cntWin P (i + 1) len

theorem cntWin_congr (P Q : Nat → Bool) (h : ∀ j, P j = Q j) :
    ∀ (len i : Nat), cntWin P i len = cntWin Q i len := by
  intro len
  induction len with
  | zero => intro i; rfl
  | succ len ih =>
    intro i
    rw [cntWin, cntWin, h i, ih]

theorem cntWin_window (a b : Nat) : ∀ (len i : Nat),
    cntWin (fun j => decide (a ≤ j ∧ j < b)) i len =
      (min b (i + len) - min b i) - (min a (i + len) - min a i) := by
  intro len
  induction len with
  | zero => intro i; simp [cntWin]
  | succ len ih =>
    intro i
    rw [cntWin, ih]
    by_cases h1 : a ≤ i <;> by_cases h2 : i < b <;> simp [h1, h2] <;> omega

theorem cntWin_ge (a : Nat) : ∀ (len i : Nat),
    cntWin (fun j => decide (a ≤ j)) i len = len - (min a (i + len) - min a i) := by
  intro len
  induction len with
  | zero => intro i; simp [cntWin]
  | succ len ih =>
    intro i
    rw [cntWin, ih]
    by_cases h1 : a ≤ i <;> simp [h1] <;> omega

theorem Graph.setScore_edges (G : Graph) (n : String) (v : Int) :
    (G.setScore n v).edges = G.edges := rfl

theorem Graph.setScore_keys (G : Graph) (n : String) (v : Int) :
    (G.setScore n v).keys = G.keys := by
  unfold Graph.setScore Graph.keys
  rw [List.map_map]
  apply List.map_congr_left
  intro p _
  by_cases h : p.1 = n <;> simp [h]

theorem find?_cons_eval {α : Type} (p : α → Bool) (a : α) (l : List α) :
    List.find? p (a :: l) = if p a then some a else List.find? p l := by
  by_cases h : p a = true
  · rw [List.find?_cons_of_pos _ h, if_pos h]
  · rw [List.find?_cons_of_neg _ h, if_neg h]

theorem Graph.setScore_getNode (G : Graph) (n : String) (v : Int) (m : String) :
    (G.setScore n v).getNode m =
      if n = m then (G.getNode m).map (fun d => { d with score := some v })
      else G.getNode m := by
  unfold Graph.setScore Graph.getNode
  induction G.nodes with
  | nil => by_cases h : n = m <;> simp [h]
  | cons p rest ih =>
    simp only [List.map_cons, find?_cons_eval]
    by_cases hpn : (p.1 == n) = true
    · have hpn' : p.1 = n := by simpa using hpn
      rw [if_pos hpn]
      by_cases hpm : (p.1 == m) = true
      · have hnm : n = m := hpn'.symm.trans (by simpa using hpm)
        simp only [if_pos hpm, if_pos hnm]
        simp
      · have hnm : ¬ n = m := fun he =>
          hpm (by rw [show p.1 = m from hpn'.trans he]; simp)
        simp only [if_neg hpm]
        simpa [hnm] using ih
    · rw [if_neg hpn]
      by_cases hpm : (p.1 == m) = true
      · have hpm' : p.1 = m := by simpa using hpm
        have hnm : ¬ n = m := fun he => hpn (by rw [hpm', he]; simp)
        simp only [if_pos hpm, if_neg hnm]
      · simp only [if_neg hpm]
        exact ih

theorem find?_eq_of_mem_nodup :
    ∀ (nodes : List (String × NodeData)), (nodes.map Prod.fst).Nodup →
      ∀ (n : String) (d : NodeData), (n, d) ∈ nodes →
        (nodes.find? (fun p => p.1 == n)).map Prod.snd = some d := by
  intro nodes
  induction nodes with
  | nil => intro _ n d h; cases h
  | cons p rest ih =>
    intro hnd n d h
    rw [find?_cons_eval]
    rcases List.mem_cons.mp h with he | h'
    · rw [← he]
      rw [if_pos (by simp)]
      rfl
    · have hpn : ¬ (p.1 == n) = true := by
        intro hb
        have hq : p.1 = n := by simpa using hb
        rw [List.map_cons, List.nodup_cons] at hnd
        exact hnd.1 (hq ▸ List.mem_map.mpr ⟨(n, d), h', rfl⟩)
      rw [if_neg hpn]
      exact ih (by rw [List.map_cons, List.nodup_cons] at hnd; exact hnd.2) n d h'

theorem Graph.getNode_eq_of_mem (G : Graph) (hnd : G.NodupKeys) (n : String)
    (d : NodeData) (h : (n, d) ∈ G.nodes) : G.getNode n = some d :=
  find?_eq_of_mem_nodup G.nodes hnd n d h

theorem map_setScore_id (n : String) (v : Int) :
    ∀ (nodes : List (String × NodeData)), n ∉ nodes.map Prod.fst →
      nodes.map (fun q => if q.1 == n then (q.1, { q.2 with score := some v }) else q) =
        nodes := by
  intro nodes
  induction nodes with
  | nil => intro _; rfl
  | cons q rest ih =>
    intro h
    rw [List.map_cons] at h ⊢
    have hq : ¬ (q.1 == n) = true := by
      intro hb
      exact h (List.mem_cons.mpr (Or.inl (show q.1 = n by simpa using hb).symm))
    rw [if_neg hq, ih (fun hm => h (List.mem_cons_of_mem _ hm))]

theorem countBy_setScore_fresh (p : Option Int → Bool) (hpn : p none = false)
    (n : String) (v : Int) :
    ∀ (nodes : List (String × NodeData)), (nodes.map Prod.fst).Nodup →
      (∀ q ∈ nodes, q.1 = n → q.2.score = none) →
      ((nodes.map (fun q => if q.1 == n then (q.1, { q.2 with score := some v }) else q)).filter
        (fun q => p q.2.score)).length =
      (nodes.filter (fun q => p q.2.score)).length +
        (if n ∈ nodes.map Prod.fst ∧ p (some v) = true then 1 else 0) := by
  intro nodes
  induction nodes with
  | nil => simp
  | cons q rest ih =>
    intro hnd hnone
    rw [List.map_cons]
    by_cases hq : (q.1 == n) = true
    · have hq' : q.1 = n := by simpa using hq
      rw [if_pos hq]
      have hscore : q.2.score = none := hnone q (List.mem_cons_self _ _) hq'
      have hrest_id : rest.map
          (fun q => if q.1 == n then (q.1, { q.2 with score := some v }) else q) = rest := by
        apply map_setScore_id
        intro hm
        rw [List.map_cons, List.nodup_cons] at hnd
        exact hnd.1 (hq' ▸ hm)
      rw [hrest_id, List.filter_cons, List.filter_cons]
      have hmem : n ∈ (q :: rest).map Prod.fst := by
        rw [List.map_cons]
        exact List.mem_cons.mpr (Or.inl hq'.symm)
      rw [show (p q.2.score) = false by rw [hscore]; exact hpn]
      by_cases hv : p (some v) = true
      · rw [if_pos hv, if_pos (And.intro hmem hv)]
        simp
      · rw [if_neg hv]
        rw [if_neg (fun hc : n ∈ (q :: rest).map Prod.fst ∧ p (some v) = true =>
          hv hc.2)]
        simp
    · rw [if_neg hq]
      have hq' : ¬ q.1 = n := fun he => hq (by rw [he]; simp)
      rw [List.filter_cons, List.filter_cons]
      have hnd' : (rest.map Prod.fst).Nodup := by
        rw [List.map_cons, List.nodup_cons] at hnd
        exact hnd.2
      have hnone' : ∀ r ∈ rest, r.1 = n → r.2.score = none :=
        fun r hr => hnone r (List.mem_cons_of_mem _ hr)
      have hmem_iff : (n ∈ (q :: rest).map Prod.fst ∧ p (some v) = true) ↔
          (n ∈ rest.map Prod.fst ∧ p (some v) = true) := by
        rw [List.map_cons, List.mem_cons]
        constructor
        · rintro ⟨hm | hm, hv⟩
          · exact absurd hm.symm hq'
          · exact ⟨hm, hv⟩
        · rintro ⟨hm, hv⟩
          exact ⟨Or.inr hm, hv⟩
      by_cases hqp : p q.2.score = true
      · rw [if_pos hqp, if_pos hqp]
        simp only [List.length_cons, ih hnd' hnone']
        rw [if_congr hmem_iff rfl rfl]
        omega
      · rw [if_neg hqp, if_neg hqp, ih hnd' hnone', if_congr hmem_iff rfl rfl]

theorem Graph.mem_keys_of_getNode (G : Graph) (n : String) (d : NodeData)
    (h : G.getNode n = some d) : n ∈ G.keys := by
  unfold Graph.getNode at h
  rcases Option.map_eq_some'.mp h with ⟨q, hq, hqd⟩
  have hmem := List.mem_of_find?_eq_some hq
  have hkey : q.1 = n := by simpa using List.find?_some hq
  exact hkey ▸ List.mem_map.mpr ⟨q, hmem, rfl⟩

theorem entries_score_none (G : Graph) (hndk : G.NodupKeys) (n : String) (d : NodeData)
    (hget : G.getNode n = some d) (hdnone : d.score = none) :
    ∀ q ∈ G.nodes, q.1 = n → q.2.score = none := by
  intro q hq hqn
  have hmemq : (n, q.2) ∈ G.nodes := by
    rw [← hqn]
    exact hq
  have hg2 := G.getNode_eq_of_mem hndk n q.2 hmemq
  rw [hget] at hg2
  injection hg2 with h2
  rw [← h2]
  exact hdnone

/-- The score-assignment loop: keys are preserved, untouched nodes keep
their record, every processed node receives exactly one legal score, and
the four bucket counts advance by the number of positions falling in
each bucket window. -/
theorem assign_scores_loop_spec (hv mv lv : Nat) :
    ∀ (l : List String), l.Nodup →
      ∀ (i : Nat) (G : Graph) (s : List Nat), G.NodupKeys →
      (∀ n ∈ l, ∃ d, G.getNode n = some d ∧ d.score = none) →
      (assign_scores_loop hv mv lv G l i s).1.keys = G.keys ∧
      (∀ n, n ∉ l → (assign_scores_loop hv mv lv G l i s).1.getNode n = G.getNode n) ∧
      (∀ n ∈ l, ∃ d v, (assign_scores_loop hv mv lv G l i s).1.getNode n = some d ∧
        d.score = some v ∧ scoreOk v) ∧
      countBy (assign_scores_loop hv mv lv G l i s).1 scoreInHeavy =
        countBy G scoreInHeavy + cntWin (fun j => decide (j < hv)) i l.length ∧
      countBy (assign_scores_loop hv mv lv G l i s).1 scoreInModerate =
        countBy G scoreInModerate +
          cntWin (fun j => decide (¬ j < hv ∧ j < hv + mv)) i l.length ∧
      countBy (assign_scores_loop hv mv lv G l i s).1 scoreInLight =
        countBy G scoreInLight +
          cntWin (fun j => decide (¬ j < hv + mv ∧ j < hv + mv + lv)) i l.length ∧
      countBy (assign_scores_loop hv mv lv G l i s).1 scoreInNoUsage =
        countBy G scoreInNoUsage +
          cntWin (fun j => decide (hv + mv + lv ≤ j)) i l.length := by
  intro l
  induction l with
  | nil =>
    intro _ i G s _ _
    simp [assign_scores_loop, cntWin]
  | cons nd rest ih =>
    intro hl i G s hndk hscores
    rw [assign_scores_loop]
    dsimp only
    have hb := drawScore_ok hv mv lv i s
    obtain ⟨d, hget, hdnone⟩ := hscores nd (List.mem_cons_self _ _)
    have hkeys' : (G.setScore nd (drawScore hv mv lv i s).1).keys = G.keys :=
      G.setScore_keys nd _
    have hndk' : (G.setScore nd (drawScore hv mv lv i s).1).NodupKeys := by
      unfold Graph.NodupKeys
      rw [hkeys']
      exact hndk
    have hnd_rest : nd ∉ rest := (List.nodup_cons.mp hl).1
    have hrest_scores : ∀ n ∈ rest,
        ∃ d', (G.setScore nd (drawScore hv mv lv i s).1).getNode n = some d' ∧
          d'.score = none := by
      intro n hn
      obtain ⟨d', hget', hnone'⟩ := hscores n (List.mem_cons_of_mem _ hn)
      refine ⟨d', ?_, hnone'⟩
      rw [G.setScore_getNode nd _ n,
        if_neg (fun he : nd = n => hnd_rest (by rw [he]; exact hn))]
      exact hget'
    obtain ⟨ih1, ih2, ih3, ih4, ih5, ih6, ih7⟩ :=
      ih (List.nodup_cons.mp hl).2 (i + 1) (G.setScore nd (drawScore hv mv lv i s).1)
        (drawScore hv mv lv i s).2 hndk' hrest_scores
    have hmem_keys : nd ∈ G.keys := G.mem_keys_of_getNode nd d hget
    have hentries := entries_score_none G hndk nd d hget hdnone
    have hcount : ∀ (p : Option Int → Bool), p none = false →
        countBy (G.setScore nd (drawScore hv mv lv i s).1) p =
          countBy G p +
            (if p (some (drawScore hv mv lv i s).1) = true then 1 else 0) := by
      intro p hpn
      have := countBy_setScore_fresh p hpn nd (drawScore hv mv lv i s).1 G.nodes hndk
        hentries
      unfold countBy Graph.setScore
      rw [this]
      congr 1
      by_cases hpv : p (some (drawScore hv mv lv i s).1) = true
      · rw [if_pos ⟨hmem_keys, hpv⟩, if_pos hpv]
      · rw [if_neg (fun hc => hpv hc.2), if_neg hpv]
    obtain ⟨hf1, hf2, hf3, hf4⟩ :=
      bucketOk_flags hv mv lv i (drawScore hv mv lv i s).1 hb
    refine ⟨ih1.trans hkeys', ?_, ?_, ?_, ?_, ?_, ?_⟩
    · intro n hn
      have hn1 : n ≠ nd := fun he => hn (he ▸ List.mem_cons_self _ _)
      have hn2 : n ∉ rest := fun hm => hn (List.mem_cons_of_mem _ hm)
      rw [ih2 n hn2, G.setScore_getNode nd _ n, if_neg (fun he => hn1 he.symm)]
    · intro n hn
      rcases List.mem_cons.mp hn with rfl | hn'
      · refine ⟨{ d with score := some (drawScore hv mv lv i s).1 },
          (drawScore hv mv lv i s).1, ?_, rfl, bucketOk_scoreOk hv mv lv i _ hb⟩
        rw [ih2 n hnd_rest, G.setScore_getNode n _ n, if_pos rfl, hget]
        rfl
      · exact ih3 n hn'
    · rw [ih4, hcount scoreInHeavy rfl, hf1]
      show _ = _ + cntWin (fun j => decide (j < hv)) i (rest.length + 1)
      rw [cntWin]
      omega
    · rw [ih5, hcount scoreInModerate rfl, hf2]
      show _ = _ + cntWin (fun j => decide (¬ j < hv ∧ j < hv + mv)) i (rest.length + 1)
      rw [cntWin]
      omega
    · rw [ih6, hcount scoreInLight rfl, hf3]
      show _ = _ + cntWin (fun j => decide (¬ j < hv + mv ∧ j < hv + mv + lv)) i
        (rest.length + 1)
      rw [cntWin]
      omega
    · rw [ih7, hcount scoreInNoUsage rfl, hf4]
      show _ = _ + cntWin (fun j => decide (hv + mv + lv ≤ j)) i (rest.length + 1)
      rw [cntWin]
      omega

theorem Graph.getNode_of_mem_keys (G : Graph) (hndk : G.NodupKeys) (n : String)
    (h : n ∈ G.keys) : ∃ d, G.getNode n = some d ∧ (n, d) ∈ G.nodes := by
  obtain ⟨q, hq, hqn⟩ := List.mem_map.mp h
  have hm : (n, q.2) ∈ G.nodes := by
    rw [← hqn]
    exact hq
  exact ⟨q.2, G.getNode_eq_of_mem hndk n q.2 hm, hm⟩

theorem countBy_zero (G : Graph) (p : Option Int → Bool) (hpn : p none = false)
    (hnone : ∀ q ∈ G.nodes, q.2.score = none) : countBy G p = 0 := by
  unfold countBy
  rw [List.filter_eq_nil_iff.mpr]
  · rfl
  · intro q hq
    rw [hnone q hq, hpn]
    simp

/-- Claim C8: `_assign_scores` gives every node exactly one score drawn
from `{-1} ∪ [1,39] ∪ [40,69] ∪ [70,100]`, and the bucket populations
are exactly `⌊n/5⌋`, `⌊n/10⌋`, `⌊n/5⌋` and the remainder, where `n` is
the node count (`int(n*0.2)` and `int(n*0.1)` coincide with the rational
floors for every realisable count). -/
theorem C8_assign_scores_buckets (G : Graph) (s : List Nat)
    (hndk : G.NodupKeys)
    (hnone : ∀ q ∈ G.nodes, q.2.score = none) :
    (assign_scores G s).1.keys = G.keys ∧
    (∀ n d, (assign_scores G s).1.getNode n = some d →
      ∃ v, d.score = some v ∧ scoreOk v) ∧
    countBy (assign_scores G s).1 scoreInHeavy = G.nodes.length / 5 ∧
    countBy (assign_scores G s).1 scoreInModerate = G.nodes.length / 10 ∧
    countBy (assign_scores G s).1 scoreInLight = G.nodes.length / 5 ∧
    countBy (assign_scores G s).1 scoreInNoUsage =
      G.nodes.length - (G.nodes.length / 5 + G.nodes.length / 10 + G.nodes.length / 5) := by
  have hperm : (shuffleR G.keys s).1.Perm G.keys := shuffleR_perm G.keys s
  set total := (shuffleR G.keys s).1.length with htotal
  have hlen : total = G.nodes.length := by
    rw [htotal, hperm.length_eq]
    unfold Graph.keys
    rw [List.length_map]
  have hnodup : (shuffleR G.keys s).1.Nodup := (hperm.nodup_iff).mpr hndk
  have hscores : ∀ n ∈ (shuffleR G.keys s).1,
      ∃ d, G.getNode n = some d ∧ d.score = none := by
    intro n hn
    obtain ⟨d, hget, hmem⟩ := G.getNode_of_mem_keys hndk n (hperm.mem_iff.mp hn)
    exact ⟨d, hget, hnone (n, d) hmem⟩
  obtain ⟨h1, h2, h3, h4, h5, h6, h7⟩ := assign_scores_loop_spec
    (total / 5) (total / 10) (total / 5) (shuffleR G.keys s).1 hnodup 0 G
    (shuffleR G.keys s).2 hndk hscores
  have hrun : assign_scores G s = assign_scores_loop
      (total / 5) (total / 10) (total / 5) G (shuffleR G.keys s).1 0
      (shuffleR G.keys s).2 := rfl
  rw [hrun]
  have hd5 : total / 5 * 5 ≤ total := Nat.div_mul_le_self total 5
  have hd10 : total / 10 * 10 ≤ total := Nat.div_mul_le_self total 10
  have hz : ∀ p hpn, countBy G p = 0 := fun p hpn => countBy_zero G p hpn hnone
  refine ⟨h1, ?_, ?_, ?_, ?_, ?_⟩
  · intro n d hget
    have hn : n ∈ (shuffleR G.keys s).1 := by
      rw [hperm.mem_iff, ← h1]
      exact Graph.mem_keys_of_getNode _ n d hget
    obtain ⟨d2, v, hget2, hscore, hok⟩ := h3 n hn
    rw [hget2] at hget
    injection hget with he
    exact ⟨v, he ▸ hscore, hok⟩
  · rw [h4, hz scoreInHeavy rfl,
      cntWin_congr _ (fun j => decide (0 ≤ j ∧ j < total / 5)) (by intro j; simp) _ _,
      cntWin_window]
    rw [← hlen]
    omega
  · rw [h5, hz scoreInModerate rfl,
      cntWin_congr _ (fun j => decide (total / 5 ≤ j ∧ j < total / 5 + total / 10))
        (by intro j; rw [decide_eq_decide]; omega) _ _,
      cntWin_window]
    rw [← hlen]
    omega
  · rw [h6, hz scoreInLight rfl,
      cntWin_congr _ (fun j => decide (total / 5 + total / 10 ≤ j ∧
        j < total / 5 + total / 10 + total / 5))
        (by intro j; rw [decide_eq_decide]; omega) _ _,
      cntWin_window]
    rw [← hlen]
    omega
  · rw [h7, hz scoreInNoUsage rfl, cntWin_ge]
    rw [← hlen]
    omega

/-- Five score-less nodes for the C8 witness. -/
def C8wG : Graph :=
  ⟨[("n1", { id := some "n1" }), ("n2", { id := some "n2" }),
    ("n3", { id := some "n3" }), ("n4", { id := some "n4" }),
    ("n5", { id := some "n5" })], []⟩

/-- Witness for C8 on a concrete five-node graph: bucket sizes 1/0/1/3. -/
theorem C8_assign_scores_buckets_witness :
    (C8wG.NodupKeys ∧ (∀ q ∈ C8wG.nodes, q.2.score = none)) ∧
    countBy (assign_scores C8wG [3, 1, 4, 1, 5, 9, 2, 6, 5, 3]).1 scoreInHeavy = 1 ∧
    countBy (assign_scores C8wG [3, 1, 4, 1, 5, 9, 2, 6, 5, 3]).1 scoreInNoUsage = 3 :=
  ⟨⟨by decide, by decide⟩,
   (C8_assign_scores_buckets C8wG [3, 1, 4, 1, 5, 9, 2, 6, 5, 3]
     (by decide) (by decide)).2.2.1,
   (C8_assign_scores_buckets C8wG [3, 1, 4, 1, 5, 9, 2, 6, 5, 3]
     (by decide) (by decide)).2.2.2.2.2⟩

/-! ## Node-record update and insertion lemmas (shared by the shaper
passes) -/

theorem find?_map_update (f : NodeData → NodeData) (n m : String) :
    ∀ (nodes : List (String × NodeData)),
      ((nodes.map (fun p => if p.1 == n then (p.1, f p.2) else p)).find?
          (fun p => p.1 == m)).map Prod.snd =
        if n = m then ((nodes.find? (fun p => p.1 == m)).map Prod.snd).map f
        else (nodes.find? (fun p => p.1 == m)).map Prod.snd := by
  intro nodes
  induction nodes with
  | nil => by_cases h : n = m <;> simp [h]
  | cons p rest ih =>
    simp only [List.map_cons, find?_cons_eval]
    by_cases hpn : (p.1 == n) = true
    · have hpn' : p.1 = n := by simpa using hpn
      rw [if_pos hpn]
      by_cases hpm : (p.1 == m) = true
      · have hnm : n = m := hpn'.symm.trans (by simpa using hpm)
        simp only [if_pos hpm, if_pos hnm]
        simp
      · have hnm : ¬ n = m := fun he =>
          hpm (by rw [show p.1 = m from hpn'.trans he]; simp)
        simp only [if_neg hpm]
        simpa [hnm] using ih
    · rw [if_neg hpn]
      by_cases hpm : (p.1 == m) = true
      · have hpm' : p.1 = m := by simpa using hpm
        have hnm : ¬ n = m := fun he => hpn (by rw [hpm', he]; simp)
        simp only [if_pos hpm, if_neg hnm]
      · simp only [if_neg hpm]
        exact ih

theorem Graph.setOrphaned_getNode (G : Graph) (n m : String) :
    (G.setOrphaned n).getNode m =
      if n = m then (G.getNode m).map (fun d => { d with orphaned := some true })
      else G.getNode m :=
  find?_map_update (fun d => { d with orphaned := some true }) n m G.nodes

theorem Graph.setOrphaned_edges (G : Graph) (n : String) :
    (G.setOrphaned n).edges = G.edges := rfl

theorem Graph.setOrphaned_keys (G : Graph) (n : String) :
    (G.setOrphaned n).keys = G.keys := by
  unfold Graph.setOrphaned Graph.keys
  rw [List.map_map]
  apply List.map_congr_left
  intro p _
  by_cases h : p.1 = n <;> simp [h]

theorem Graph.add_node_getNode_of_hasNode (G : Graph) (n : String) (d : NodeData)
    (h : G.hasNode n = true) (m : String) :
    (G.add_node n d).getNode m =
      if n = m then (G.getNode m).map (fun old => old.merge d)
      else G.getNode m := by
  unfold Graph.add_node
  rw [if_pos h]
  exact find?_map_update (fun old => old.merge d) n m G.nodes

theorem find?_snoc_fresh (n m : String) (d : NodeData) :
    ∀ (nodes : List (String × NodeData)), (∀ p ∈ nodes, (p.1 == n) = false) →
      ((nodes ++ [(n, d)]).find? (fun p => p.1 == m)).map Prod.snd =
        if n = m then some d
        else (nodes.find? (fun p => p.1 == m)).map Prod.snd := by
  intro nodes
  induction nodes with
  | nil =>
    intro _
    by_cases h : n = m
    · rw [if_pos h]
      simp [find?_cons_eval, h]
    · rw [if_neg h]
      simp [find?_cons_eval, (by simpa using h : ¬ (n == m) = true)]
  | cons p rest ih =>
    intro hall
    rw [List.cons_append, find?_cons_eval, find?_cons_eval]
    by_cases hpm : (p.1 == m) = true
    · have hnm : ¬ n = m := by
        intro he
        have hp := hall p (List.mem_cons_self p rest)
        rw [he, hpm] at hp
        cases hp
      rw [if_pos hpm, if_pos hpm, if_neg hnm]
    · rw [if_neg hpm, if_neg hpm]
      by_cases hnmq : n = m
      · rw [if_pos hnmq, ih (fun q hq => hall q (List.mem_cons_of_mem _ hq)),
          if_pos hnmq]
      · rw [if_neg hnmq, ih (fun q hq => hall q (List.mem_cons_of_mem _ hq)),
          if_neg hnmq]

theorem Graph.add_node_getNode_of_fresh (G : Graph) (n : String) (d : NodeData)
    (h : G.hasNode n = false) (m : String) :
    (G.add_node n d).getNode m = if n = m then some d else G.getNode m := by
  have hall : ∀ p ∈ G.nodes, (p.1 == n) = false := by
    intro p hp
    by_contra hb
    rw [Bool.not_eq_false] at hb
    have hh : G.hasNode n = true := by
      unfold Graph.hasNode
      exact List.any_eq_true.mpr ⟨p, hp, hb⟩
    rw [h] at hh
    cases hh
  unfold Graph.add_node
  rw [if_neg (by rw [h]; exact Bool.false_ne_true)]
  exact find?_snoc_fresh n m d G.nodes hall

theorem Graph.add_node_keys_of_hasNode (G : Graph) (n : String) (d : NodeData)
    (h : G.hasNode n = true) : (G.add_node n d).keys = G.keys := by
  unfold Graph.add_node
  rw [if_pos h]
  unfold Graph.keys
  rw [List.map_map]
  apply List.map_congr_left
  intro p _
  by_cases hp : p.1 = n <;> simp [hp]

theorem Graph.add_node_nodup (G : Graph) (n : String) (d : NodeData)
    (h : G.NodupKeys) : (G.add_node n d).NodupKeys := by
  by_cases hn : G.hasNode n = true
  · unfold Graph.NodupKeys
    rw [Graph.add_node_keys_of_hasNode G n d hn]
    exact h
  · rw [Bool.not_eq_true] at hn
    unfold Graph.NodupKeys
    rw [Graph.add_node_keys_of_fresh G n d hn]
    have hmem : n ∉ G.keys := fun hm =>
      (by rw [(G.hasNode_iff_mem_keys n).mpr hm] at hn; cases hn)
    rw [List.nodup_append]
    refine ⟨h, List.nodup_singleton n, ?_⟩
    intro a ha hm
    exact hmem ((List.mem_singleton.mp hm) ▸ ha)

/-! ## The disconnected-subgraph pass touches only flagged nodes -/

/-- Boolean form of `nodes[n].get('is_disconnected_subgraph') == True`. -/
def Graph.flaggedB (G : Graph) (n : String) : Bool :=
  ((G.getNode n).map (fun d => d.is_disconnected_subgraph == some true)).getD false

theorem flaggedB_eq_true_iff (G : Graph) (m : String) :
    G.flaggedB m = true ↔
      ∃ d, G.getNode m = some d ∧ d.is_disconnected_subgraph = some true := by
  unfold Graph.flaggedB
  cases hg : G.getNode m with
  | none => simp
  | some d => simp [hg]

theorem hasNode_of_flaggedB (G : Graph) (m : String) (h : G.flaggedB m = true) :
    G.hasNode m = true := by
  obtain ⟨d, hd, _⟩ := (flaggedB_eq_true_iff G m).mp h
  rw [Graph.hasNode_true_iff_getNode_isSome, hd]
  rfl

theorem flaggedB_congr (G G' : Graph) (h : G'.nodes = G.nodes) (m : String) :
    G'.flaggedB m = G.flaggedB m := by
  unfold Graph.flaggedB Graph.getNode
  rw [h]

theorem isClusterId_append (r : String) :
    isClusterId ("disconnected." ++ r) = true := by
  unfold isClusterId
  rw [List.isPrefixOf_iff_prefix]
  show "disconnected.".toList <+: ("disconnected." ++ r).toList
  have hsplit : ("disconnected." ++ r).toList =
      "disconnected.".toList ++ r.toList := by
    simp [String.toList, String.data_append]
  rw [hsplit]
  exact List.prefix_append _ _

theorem isClusterId_clusterId (i : Nat) (ty name : String) :
    isClusterId (clusterId i ty name) = true := by
  have hassoc : clusterId i ty name =
      "disconnected." ++ (toString i ++ "." ++ ty ++ "." ++ name) := by
    unfold clusterId
    simp [String.append_assoc]
  rw [hassoc]
  exact isClusterId_append _

/-- Invariant of the disconnected-subgraph pass relative to the incoming
graph `G0`: keys stay duplicate-free, every pre-existing node record is
untouched, every edge is either pre-existing or joins two nodes flagged
`is_disconnected_subgraph=True`, and every orphan-flagged record is
pre-existing. -/
def ClusterInv (G0 G : Graph) : Prop :=
  G.NodupKeys ∧
  (∀ n d, G0.getNode n = some d → G.getNode n = some d) ∧
  (∀ e ∈ G.edges, e ∈ G0.edges ∨
    (G.flaggedB e.source = true ∧ G.flaggedB e.target = true)) ∧
  (∀ n d, G.getNode n = some d → d.orphaned = some true → G0.getNode n = some d)

theorem flaggedB_add_node (G : Graph) (id0 : String) (d : NodeData)
    (hd : d.is_disconnected_subgraph = some true) (m : String)
    (h : G.flaggedB m = true) : (G.add_node id0 d).flaggedB m = true := by
  obtain ⟨dm, hdm, hfm⟩ := (flaggedB_eq_true_iff G m).mp h
  rw [flaggedB_eq_true_iff]
  by_cases hn : G.hasNode id0 = true
  · rw [Graph.add_node_getNode_of_hasNode G id0 d hn m]
    by_cases he : id0 = m
    · rw [if_pos he, hdm]
      refine ⟨dm.merge d, rfl, ?_⟩
      show (d.is_disconnected_subgraph <|> dm.is_disconnected_subgraph) = some true
      rw [hd]
      rfl
    · rw [if_neg he]
      exact ⟨dm, hdm, hfm⟩
  · rw [Bool.not_eq_true] at hn
    rw [Graph.add_node_getNode_of_fresh G id0 d hn m]
    by_cases he : id0 = m
    · exact ⟨d, by rw [if_pos he], hd⟩
    · rw [if_neg he]
      exact ⟨dm, hdm, hfm⟩

theorem clusterInv_add_node (G0 G : Graph) (id0 : String) (d : NodeData)
    (hG0 : ∀ n, isClusterId n = true → G0.getNode n = none)
    (hid : isClusterId id0 = true)
    (hd : d.is_disconnected_subgraph = some true)
    (hdo : d.orphaned = none)
    (hI : ClusterInv G0 G) :
    ClusterInv G0 (G.add_node id0 d) ∧ (G.add_node id0 d).flaggedB id0 = true := by
  obtain ⟨hnd, hpres, hedges, horph⟩ := hI
  have hG0id : G0.getNode id0 = none := hG0 id0 hid
  constructor
  · refine ⟨Graph.add_node_nodup G id0 d hnd, ?_, ?_, ?_⟩
    · intro n dn hgn
      by_cases he : id0 = n
      · rw [← he, hG0id] at hgn
        cases hgn
      · by_cases hn : G.hasNode id0 = true
        · rw [Graph.add_node_getNode_of_hasNode G id0 d hn n, if_neg he]
          exact hpres n dn hgn
        · rw [Bool.not_eq_true] at hn
          rw [Graph.add_node_getNode_of_fresh G id0 d hn n, if_neg he]
          exact hpres n dn hgn
    · intro e he
      rw [Graph.add_node_edges] at he
      rcases hedges e he with h1 | ⟨h2, h3⟩
      · exact Or.inl h1
      · exact Or.inr ⟨flaggedB_add_node G id0 d hd e.source h2,
          flaggedB_add_node G id0 d hd e.target h3⟩
    · intro n dn hgn hodn
      by_cases hn : G.hasNode id0 = true
      · rw [Graph.add_node_getNode_of_hasNode G id0 d hn n] at hgn
        by_cases he : id0 = n
        · rw [if_pos he] at hgn
          cases hg : G.getNode n with
          | none => rw [hg] at hgn; cases hgn
          | some old =>
            rw [hg] at hgn
            have hdn : dn = old.merge d := (Option.some.inj hgn).symm
            have hoo : dn.orphaned = old.orphaned := by
              rw [hdn]
              show (d.orphaned <|> old.orphaned) = old.orphaned
              rw [hdo]
              rfl
            have hold : G0.getNode n = some old :=
              horph n old hg (by rw [← hoo]; exact hodn)
            rw [← he, hG0id] at hold
            cases hold
        · rw [if_neg he] at hgn
          exact horph n dn hgn hodn
      · rw [Bool.not_eq_true] at hn
        rw [Graph.add_node_getNode_of_fresh G id0 d hn n] at hgn
        by_cases he : id0 = n
        · rw [if_pos he] at hgn
          have hdn : dn = d := (Option.some.inj hgn).symm
          rw [hdn, hdo] at hodn
          cases hodn
        · rw [if_neg he] at hgn
          exact horph n dn hgn hodn
  · rw [flaggedB_eq_true_iff]
    by_cases hn : G.hasNode id0 = true
    · rw [Graph.add_node_getNode_of_hasNode G id0 d hn id0, if_pos rfl]
      obtain ⟨old, hold⟩ := Option.isSome_iff_exists.mp
        ((Graph.hasNode_true_iff_getNode_isSome G id0).mp hn)
      refine ⟨old.merge d, by rw [hold]; rfl, ?_⟩
      show (d.is_disconnected_subgraph <|> old.is_disconnected_subgraph) = some true
      rw [hd]
      rfl
    · rw [Bool.not_eq_true] at hn
      rw [Graph.add_node_getNode_of_fresh G id0 d hn id0, if_pos rfl]
      exact ⟨d, rfl, hd⟩

theorem clusterInv_add_edge (G0 G : Graph) (a b rel : String)
    (ha : G.flaggedB a = true) (hb : G.flaggedB b = true)
    (hI : ClusterInv G0 G) :
    ClusterInv G0 (G.add_edge a b rel) ∧
      ∀ m, G.flaggedB m = true → (G.add_edge a b rel).flaggedB m = true := by
  have hna := hasNode_of_flaggedB G a ha
  have hnb := hasNode_of_flaggedB G b hb
  have hnodes := Graph.add_edge_nodes_of_hasNode G a b rel hna hnb
  have hflag : ∀ m, (G.add_edge a b rel).flaggedB m = G.flaggedB m :=
    fun m => flaggedB_congr G _ hnodes m
  obtain ⟨hnd, hpres, hedges, horph⟩ := hI
  have hget : ∀ n, (G.add_edge a b rel).getNode n = G.getNode n := by
    intro n
    unfold Graph.getNode
    rw [hnodes]
  refine ⟨⟨?_, ?_, ?_, ?_⟩, fun m hm => by rw [hflag m]; exact hm⟩
  · unfold Graph.NodupKeys Graph.keys
    rw [hnodes]
    exact hnd
  · intro n dn hgn
    rw [hget n]
    exact hpres n dn hgn
  · intro e he
    rcases Graph.mem_add_edge_edges G a b rel e he with h1 | ⟨h2, h3, _⟩
    · rcases hedges e h1 with h1' | ⟨hf1, hf2⟩
      · exact Or.inl h1'
      · exact Or.inr ⟨by rw [hflag]; exact hf1, by rw [hflag]; exact hf2⟩
    · exact Or.inr ⟨by rw [hflag, h2]; exact ha, by rw [hflag, h3]; exact hb⟩
  · intro n dn hgn hodn
    exact horph n dn (by rw [hget n] at hgn; exact hgn) hodn

theorem flaggedB_of_mem_clusterNodes (G : Graph) (hnd : G.NodupKeys) (n : String)
    (h : n ∈ clusterNodes G) : G.flaggedB n = true := by
  unfold clusterNodes at h
  obtain ⟨q, hq, hqn⟩ := List.mem_map.mp h
  have hf := List.mem_filter.mp hq
  have hmem : (n, q.2) ∈ G.nodes := by
    rw [← hqn]
    simpa using hf.1
  rw [flaggedB_eq_true_iff]
  exact ⟨q.2, Graph.getNode_eq_of_mem G hnd n q.2 hmem, by simpa using hf.2⟩

theorem cluster_child_loop_inv (G0 : Graph)
    (hG0 : ∀ n, isClusterId n = true → G0.getNode n = none)
    (i : Nat) (central_type central_id ds_id team : String) :
    ∀ (rem j : Nat) (G : Graph) (s : List Nat),
      ClusterInv G0 G → G.flaggedB central_id = true →
      ClusterInv G0
          (cluster_child_loop i central_type central_id ds_id team rem j G s).1 ∧
        (cluster_child_loop i central_type central_id ds_id team rem j G s).1.flaggedB
          central_id = true := by
  intro rem
  induction rem with
  | zero =>
    intro j G s hI hc
    exact ⟨hI, hc⟩
  | succ k ih =>
    intro j G s hI hc
    rcases hct : clusterChildType central_type s with ⟨ct, s1⟩
    rcases hkn : take1 s1 with ⟨kname, s2⟩
    rcases htc : randPctR 70 s2 with ⟨toCentral, s3⟩
    rw [cluster_child_loop, hct]
    dsimp only
    rw [hkn]
    dsimp only
    rw [htc]
    dsimp only
    obtain ⟨I1, hchild⟩ := clusterInv_add_node G0 G
      (clusterId i ct (random_name ("disconnected_" ++ ct) kname))
      (clusterNodeData (clusterId i ct (random_name ("disconnected_" ++ ct) kname))
        ct ds_id team)
      hG0 (isClusterId_clusterId i ct _) rfl rfl hI
    have hc1 := flaggedB_add_node G
      (clusterId i ct (random_name ("disconnected_" ++ ct) kname))
      (clusterNodeData (clusterId i ct (random_name ("disconnected_" ++ ct) kname))
        ct ds_id team) rfl central_id hc
    by_cases h1 : (toCentral || decide (j < 3)) = true
    · rw [if_pos h1]
      by_cases h2 : (get_valid_relationships central_type ct).isEmpty = true
      · rw [if_pos h2]
        exact ih (j + 1) _ s3 I1 hc1
      · rw [if_neg h2]
        rcases hch : choiceR (get_valid_relationships central_type ct) "" s3 with ⟨rt, s'⟩
        dsimp only
        obtain ⟨I2, hmono⟩ := clusterInv_add_edge G0 _ central_id
          (clusterId i ct (random_name ("disconnected_" ++ ct) kname)) rt
          hc1 hchild I1
        exact ih (j + 1) _ s' I2 (hmono central_id hc1)
    · rw [if_neg h1]
      by_cases h3 : (((clusterNodes
          (G.add_node (clusterId i ct (random_name ("disconnected_" ++ ct) kname))
            (clusterNodeData
              (clusterId i ct (random_name ("disconnected_" ++ ct) kname))
              ct ds_id team))).filter
            (fun n => n != clusterId i ct (random_name ("disconnected_" ++ ct) kname))).isEmpty) = true
      · rw [if_pos h3]
        exact ih (j + 1) _ s3 I1 hc1
      · rw [if_neg h3]
        rcases hpp : choiceR ((clusterNodes
            (G.add_node (clusterId i ct (random_name ("disconnected_" ++ ct) kname))
              (clusterNodeData
                (clusterId i ct (random_name ("disconnected_" ++ ct) kname))
                ct ds_id team))).filter
              (fun n => n != clusterId i ct (random_name ("disconnected_" ++ ct) kname)))
            "" s3 with ⟨pp, s'⟩
        dsimp only
        have hne : ((clusterNodes
            (G.add_node (clusterId i ct (random_name ("disconnected_" ++ ct) kname))
              (clusterNodeData
                (clusterId i ct (random_name ("disconnected_" ++ ct) kname))
                ct ds_id team))).filter
              (fun n => n != clusterId i ct (random_name ("disconnected_" ++ ct) kname))) ≠ [] := by
          intro he
          rw [he] at h3
          exact h3 rfl
        have hppmem : pp ∈ ((clusterNodes
            (G.add_node (clusterId i ct (random_name ("disconnected_" ++ ct) kname))
              (clusterNodeData
                (clusterId i ct (random_name ("disconnected_" ++ ct) kname))
                ct ds_id team))).filter
              (fun n => n != clusterId i ct (random_name ("disconnected_" ++ ct) kname))) := by
          have hm := choiceR_fst_mem _ "" s3 hne
          rw [hpp] at hm
          exact hm
        have hppc : pp ∈ clusterNodes
            (G.add_node (clusterId i ct (random_name ("disconnected_" ++ ct) kname))
              (clusterNodeData
                (clusterId i ct (random_name ("disconnected_" ++ ct) kname))
                ct ds_id team)) := List.mem_of_mem_filter hppmem
        have hppf := flaggedB_of_mem_clusterNodes _ I1.1 pp hppc
        by_cases h4 : (get_valid_relationships
            ((G.add_node (clusterId i ct (random_name ("disconnected_" ++ ct) kname))
              (clusterNodeData
                (clusterId i ct (random_name ("disconnected_" ++ ct) kname))
                ct ds_id team)).nodeType pp) ct).isEmpty = true
        · rw [if_pos h4]
          exact ih (j + 1) _ s' I1 hc1
        · rw [if_neg h4]
          rcases hrt : choiceR (get_valid_relationships
              ((G.add_node (clusterId i ct (random_name ("disconnected_" ++ ct) kname))
                (clusterNodeData
                  (clusterId i ct (random_name ("disconnected_" ++ ct) kname))
                  ct ds_id team)).nodeType pp) ct) "" s' with ⟨rt, s''⟩
          dsimp only
          obtain ⟨I2, hmono⟩ := clusterInv_add_edge G0 _ pp
            (clusterId i ct (random_name ("disconnected_" ++ ct) kname)) rt
            hppf hchild I1
          exact ih (j + 1) _ s'' I2 (hmono central_id hc1)

theorem cluster_extra_loop_inv (G0 : Graph) (sn : List String) :
    ∀ (rem : Nat) (G : Graph) (s : List Nat),
      ClusterInv G0 G → (∀ n ∈ sn, G.flaggedB n = true) →
      ClusterInv G0 (cluster_extra_loop sn rem G s).1 ∧
        ∀ n ∈ sn, (cluster_extra_loop sn rem G s).1.flaggedB n = true := by
  intro rem
  induction rem with
  | zero =>
    intro G s hI hf
    exact ⟨hI, hf⟩
  | succ k ih =>
    intro G s hI hf
    rcases hsrc : choiceR sn "" s with ⟨src, s1⟩
    rcases htgt : choiceR sn "" s1 with ⟨tgt, s2⟩
    rw [cluster_extra_loop, hsrc]
    dsimp only
    rw [htgt]
    dsimp only
    by_cases h1 : (src != tgt && !G.hasEdge src tgt) = true
    · rw [if_pos h1]
      have hne : sn ≠ [] := by
        intro he
        subst he
        have hs0 : (choiceR ([] : List String) "" s).1 = "" := by cases s <;> rfl
        rw [hsrc] at hs0
        have ht0 : (choiceR ([] : List String) "" s1).1 = "" := by cases s1 <;> rfl
        rw [htgt] at ht0
        rw [Bool.and_eq_true] at h1
        have hb := h1.1
        rw [bne_iff_ne] at hb
        exact hb (hs0.trans ht0.symm)
      have hsmem : src ∈ sn := by
        have hm := choiceR_fst_mem sn "" s hne
        rw [hsrc] at hm
        exact hm
      have htmem : tgt ∈ sn := by
        have hm := choiceR_fst_mem sn "" s1 hne
        rw [htgt] at hm
        exact hm
      by_cases h2 : (get_valid_relationships (G.nodeType src) (G.nodeType tgt)).isEmpty = true
      · rw [if_pos h2]
        exact ih G s2 hI hf
      · rw [if_neg h2]
        rcases hrt : choiceR (get_valid_relationships (G.nodeType src) (G.nodeType tgt))
          "" s2 with ⟨rt, s3⟩
        dsimp only
        obtain ⟨I2, hmono⟩ := clusterInv_add_edge G0 G src tgt rt
          (hf src hsmem) (hf tgt htmem) hI
        exact ih _ s3 I2 (fun n hn => hmono n (hf n hn))
    · rw [if_neg h1]
      exact ih G s2 hI hf

theorem cluster_iteration_inv (cfg : Config) (G0 : Graph)
    (hG0 : ∀ n, isClusterId n = true → G0.getNode n = none)
    (i : Nat) (G : Graph) (s : List Nat) (hI : ClusterInv G0 G) :
    ClusterInv G0 (cluster_iteration cfg i G s).1 := by
  rcases hsz : randintR 5 15 s with ⟨subgraph_size, s1⟩
  rcases hteam : choiceR cfg.teams "" s1 with ⟨team, s2⟩
  rcases hds : choiceR cfg.data_sources "" s2 with ⟨ds_id, s3⟩
  rcases hcen : choiceR ["table", "model", "dashboard", "workflow"] "table" s3
    with ⟨central_type, s4⟩
  rcases hkn : take1 s4 with ⟨kname, s5⟩
  rw [cluster_iteration, hsz]
  dsimp only
  rw [hteam]
  dsimp only
  rw [hds]
  dsimp only
  rw [hcen]
  dsimp only
  rw [hkn]
  dsimp only
  obtain ⟨I1, hcent⟩ := clusterInv_add_node G0 G
    (clusterId i central_type (random_name ("disconnected_" ++ central_type) kname))
    (clusterNodeData
      (clusterId i central_type (random_name ("disconnected_" ++ central_type) kname))
      central_type ds_id team)
    hG0 (isClusterId_clusterId i central_type _) rfl rfl hI
  obtain ⟨I2, _⟩ := cluster_child_loop_inv G0 hG0 i central_type
    (clusterId i central_type (random_name ("disconnected_" ++ central_type) kname))
    ds_id team (subgraph_size - 1) 0
    (G.add_node
      (clusterId i central_type (random_name ("disconnected_" ++ central_type) kname))
      (clusterNodeData
        (clusterId i central_type (random_name ("disconnected_" ++ central_type) kname))
        central_type ds_id team))
    s5 I1 hcent
  exact (cluster_extra_loop_inv G0 _ _ _ _ I2
    (fun n hn => flaggedB_of_mem_clusterNodes _ I2.1 n hn)).1

theorem create_disconnected_subgraphs_inv (cfg : Config) (G : Graph) (s : List Nat)
    (hnd : G.NodupKeys)
    (hG0 : ∀ n, isClusterId n = true → G.getNode n = none) :
    ClusterInv G (create_disconnected_subgraphs cfg G s).1 := by
  have hinit : ClusterInv G G :=
    ⟨hnd, fun _ _ h => h, fun e he => Or.inl he, fun _ _ h _ => h⟩
  unfold create_disconnected_subgraphs
  have hgen : ∀ (L : List Nat) (q : Graph × List Nat), ClusterInv G q.1 →
      ClusterInv G ((L.foldl (fun q i => cluster_iteration cfg i q.1 q.2) q)).1 := by
    intro L
    induction L with
    | nil =>
      intro q h
      exact h
    | cons a L ihL =>
      intro q h
      rw [List.foldl_cons]
      exact ihL _ (cluster_iteration_inv cfg G hG0 a q.1 q.2 h)
  exact hgen (List.range cfg.disconnected_subgraphs) (G, s) hinit

/-- Configuration for the C2 analysis: one team, one data source, two
disconnected subgraphs. -/
def cfgC2 : Config :=
  { min_nodes := 0, edge_multiplier := 0, orphaned_node_pct := 0,
    disconnected_subgraphs := 2, teams := ["team_1"],
    data_sources := ["snowflake"] }

/-- A random stream that builds two five-node clusters and makes the last
child of cluster 1 pick its parent among the flagged nodes of cluster 0:
the `random.choice(subgraph_nodes)` pool at line 1676 spans every
cluster built so far. -/
def sC2 : List Nat :=
  [0, 0, 0, 0, 1, 0, 2, 0, 0, 0, 3, 0, 0, 0, 4, 0, 0, 0, 5, 0, 0] ++
    [0, 0, 0, 0, 0, 0, 0, 0, 0, 0] ++
    [0, 0, 0, 0, 6, 0, 7, 0, 0, 0, 8, 0, 0, 0, 9, 0, 0, 0, 10, 70, 0, 0] ++
    [0, 0, 0, 0, 0, 0, 0, 0, 0, 0]

/-- Counterexample to claim C2: on an empty main graph the subgraph
injector emits an edge from a cluster-0 table to a cluster-1 column, so
a cluster member is reachable from a node of a different cluster and the
claimed per-cluster isolation fails. -/
theorem C2_counterexample :
    (⟨"disconnected.0.table.disconnected_table_baaaaaaa",
        "disconnected.1.column.disconnected_column_kaaaaaaa", "parent_child"⟩ : Edge) ∈
      (create_disconnected_subgraphs cfgC2 Graph.empty sC2).1.edges ∧
    isClusterId "disconnected.0.table.disconnected_table_baaaaaaa" = true ∧
    isClusterId "disconnected.1.column.disconnected_column_kaaaaaaa" = true ∧
    "disconnected.0.".toList.isPrefixOf
      "disconnected.0.table.disconnected_table_baaaaaaa".toList = true ∧
    "disconnected.1.".toList.isPrefixOf
      "disconnected.1.column.disconnected_column_kaaaaaaa".toList = true ∧
    "disconnected.1.".toList.isPrefixOf
      "disconnected.0.table.disconnected_table_baaaaaaa".toList = false := by
  refine ⟨by decide, by decide, by decide, by decide, by decide, by decide⟩

/-- Claim C2 (amended): the disconnected-subgraph pass leaves every
pre-existing node record untouched, and every edge of the result is
either pre-existing or joins two nodes flagged
`is_disconnected_subgraph=True`; consequently no edge ever connects an
unflagged main-graph node to anything new, so isolation from the main
graph is structural.  (The claim's stronger per-cluster isolation is
false: the `random.choice` parent pools span the flagged nodes of every
cluster built so far, see the counterexample.) -/
theorem C2_amended_main_graph_isolated (cfg : Config) (G : Graph) (s : List Nat)
    (hnd : G.NodupKeys)
    (hcl : ∀ n, isClusterId n = true → G.getNode n = none) :
    (∀ n d, G.getNode n = some d →
      (create_disconnected_subgraphs cfg G s).1.getNode n = some d) ∧
    (∀ e ∈ (create_disconnected_subgraphs cfg G s).1.edges, e ∈ G.edges ∨
      ((create_disconnected_subgraphs cfg G s).1.flaggedB e.source = true ∧
        (create_disconnected_subgraphs cfg G s).1.flaggedB e.target = true)) ∧
    (∀ m dm, G.getNode m = some dm → dm.is_disconnected_subgraph ≠ some true →
      ∀ e ∈ (create_disconnected_subgraphs cfg G s).1.edges,
        e.source = m ∨ e.target = m → e ∈ G.edges) := by
  obtain ⟨hndR, hpres, hedges, horph⟩ := create_disconnected_subgraphs_inv cfg G s hnd hcl
  refine ⟨hpres, hedges, ?_⟩
  intro m dm hgm hflag e he hinc
  rcases hedges e he with h1 | ⟨hf1, hf2⟩
  · exact h1
  · exfalso
    have hgm' := hpres m dm hgm
    have hfm : (create_disconnected_subgraphs cfg G s).1.flaggedB m = true := by
      rcases hinc with h | h
      · rw [← h]
        exact hf1
      · rw [← h]
        exact hf2
    obtain ⟨d', hd', hfd'⟩ := (flaggedB_eq_true_iff _ m).mp hfm
    rw [hgm'] at hd'
    obtain rfl := (Option.some.inj hd').symm
    exact hflag hfd'

/-- Witness for the amended C2 statement on the concrete configuration
and stream of the development: the hypotheses hold for the empty main
graph. -/
theorem C2_amended_witness :
    Graph.NodupKeys Graph.empty ∧
    (∀ n, isClusterId n = true → Graph.empty.getNode n = none) ∧
    ((∀ n d, Graph.empty.getNode n = some d →
        (create_disconnected_subgraphs cfgC2 Graph.empty sC2).1.getNode n = some d) ∧
      (∀ e ∈ (create_disconnected_subgraphs cfgC2 Graph.empty sC2).1.edges,
        e ∈ Graph.empty.edges ∨
          ((create_disconnected_subgraphs cfgC2 Graph.empty sC2).1.flaggedB e.source = true ∧
            (create_disconnected_subgraphs cfgC2 Graph.empty sC2).1.flaggedB e.target = true)) ∧
      (∀ m dm, Graph.empty.getNode m = some dm →
        dm.is_disconnected_subgraph ≠ some true →
        ∀ e ∈ (create_disconnected_subgraphs cfgC2 Graph.empty sC2).1.edges,
          e.source = m ∨ e.target = m → e ∈ Graph.empty.edges)) :=
  ⟨by decide, fun _ _ => rfl,
    C2_amended_main_graph_isolated cfgC2 Graph.empty sC2 (by decide) (fun _ _ => rfl)⟩

/-! ## The orphan injector really disconnects (C6) -/

theorem remove_in_edges_eq (G : Graph) (m : String) :
    (G.remove_edges_from (G.in_edges m)).edges =
      G.edges.filter (fun e => !(e.target == m)) := by
  show G.edges.filter _ = _
  apply List.filter_congr
  intro e he
  have hany : ((G.in_edges m).any
      (fun e' => e'.source == e.source && e'.target == e.target)) = (e.target == m) := by
    by_cases h : (e.target == m) = true
    · rw [h]
      apply List.any_eq_true.mpr
      exact ⟨e, List.mem_filter.mpr ⟨he, h⟩, by simp⟩
    · rw [Bool.not_eq_true] at h
      rw [h]
      apply List.any_eq_false.mpr
      intro e' he'
      have ht' : (e'.target == m) = true := (List.mem_filter.mp he').2
      intro hb
      rw [Bool.and_eq_true] at hb
      have h1 : e'.target = e.target := by simpa using hb.2
      have h2 : e'.target = m := by simpa using ht'
      have h3 : (e.target == m) = true := by
        rw [← h1, h2]
        simp
      rw [h3] at h
      cases h
  rw [hany]

theorem remove_out_edges_eq (G : Graph) (m : String) :
    (G.remove_edges_from (G.out_edges m)).edges =
      G.edges.filter (fun e => !(e.source == m)) := by
  show G.edges.filter _ = _
  apply List.filter_congr
  intro e he
  have hany : ((G.out_edges m).any
      (fun e' => e'.source == e.source && e'.target == e.target)) = (e.source == m) := by
    by_cases h : (e.source == m) = true
    · rw [h]
      apply List.any_eq_true.mpr
      exact ⟨e, List.mem_filter.mpr ⟨he, h⟩, by simp⟩
    · rw [Bool.not_eq_true] at h
      rw [h]
      apply List.any_eq_false.mpr
      intro e' he'
      have ht' : (e'.source == m) = true := (List.mem_filter.mp he').2
      intro hb
      rw [Bool.and_eq_true] at hb
      have h1 : e'.source = e.source := by simpa using hb.1
      have h2 : e'.source = m := by simpa using ht'
      have h3 : (e.source == m) = true := by
        rw [← h1, h2]
        simp
      rw [h3] at h
      cases h
  rw [hany]

theorem orphanOne_edges (G : Graph) (m : String) :
    (orphanOne G m).edges =
      (G.edges.filter (fun e => !(e.target == m))).filter
        (fun e => !(e.source == m)) := by
  unfold orphanOne
  rw [Graph.setOrphaned_edges, remove_out_edges_eq, remove_in_edges_eq]

theorem orphanOne_getNode (G : Graph) (m n : String) :
    (orphanOne G m).getNode n =
      if m = n then (G.getNode n).map (fun d => { d with orphaned := some true })
      else G.getNode n :=
  Graph.setOrphaned_getNode _ m n

theorem orphanOne_keys (G : Graph) (m : String) :
    (orphanOne G m).keys = G.keys :=
  Graph.setOrphaned_keys _ m

/-- Degree-zero property of orphan-flagged nodes. -/
def OrphanDegreeInv (G : Graph) : Prop :=
  ∀ n d, G.getNode n = some d → d.orphaned = some true →
    G.in_edges n = [] ∧ G.out_edges n = []

theorem orphanOne_inv (G : Graph) (m : String) (h : OrphanDegreeInv G) :
    OrphanDegreeInv (orphanOne G m) := by
  intro n d hget hod
  have hedges := orphanOne_edges G m
  rw [orphanOne_getNode G m n] at hget
  by_cases hmn : m = n
  · subst hmn
    constructor
    · unfold Graph.in_edges
      rw [hedges]
      apply List.filter_eq_nil_iff.mpr
      intro e he hb
      have h1 := (List.mem_filter.mp (List.mem_of_mem_filter he)).2
      rw [hb] at h1
      cases h1
    · unfold Graph.out_edges
      rw [hedges]
      apply List.filter_eq_nil_iff.mpr
      intro e he hb
      have h1 := (List.mem_filter.mp he).2
      rw [hb] at h1
      cases h1
  · rw [if_neg hmn] at hget
    obtain ⟨h1, h2⟩ := h n d hget hod
    constructor
    · unfold Graph.in_edges at h1 ⊢
      rw [hedges]
      apply List.filter_eq_nil_iff.mpr
      intro e he hb
      have heG : e ∈ G.edges := List.mem_of_mem_filter (List.mem_of_mem_filter he)
      exact List.filter_eq_nil_iff.mp h1 e heG hb
    · unfold Graph.out_edges at h2 ⊢
      rw [hedges]
      apply List.filter_eq_nil_iff.mpr
      intro e he hb
      have heG : e ∈ G.edges := List.mem_of_mem_filter (List.mem_of_mem_filter he)
      exact List.filter_eq_nil_iff.mp h2 e heG hb

theorem orphan_fold_keys (l : List String) :
    ∀ (G : Graph), (l.foldl orphanOne G).keys = G.keys := by
  induction l with
  | nil =>
    intro G
    rfl
  | cons m rest ih =>
    intro G
    rw [List.foldl_cons, ih, orphanOne_keys]

theorem orphan_fold_inv (l : List String) :
    ∀ (G : Graph), OrphanDegreeInv G → OrphanDegreeInv (l.foldl orphanOne G) := by
  induction l with
  | nil =>
    intro G h
    exact h
  | cons m rest ih =>
    intro G h
    rw [List.foldl_cons]
    exact ih _ (orphanOne_inv G m h)

theorem orphan_fold_flag (l : List String) :
    ∀ (G : Graph) (n : String) (d' : NodeData),
      (l.foldl orphanOne G).getNode n = some d' →
      ∃ d, G.getNode n = some d ∧
        d'.is_disconnected_subgraph = d.is_disconnected_subgraph := by
  induction l with
  | nil =>
    intro G n d' h
    exact ⟨d', h, rfl⟩
  | cons m rest ih =>
    intro G n d' h
    rw [List.foldl_cons] at h
    obtain ⟨dm, hdm, hf⟩ := ih _ n d' h
    rw [orphanOne_getNode G m n] at hdm
    by_cases hmn : m = n
    · rw [if_pos hmn] at hdm
      cases hg : G.getNode n with
      | none =>
        rw [hg] at hdm
        cases hdm
      | some d0 =>
        rw [hg] at hdm
        have hd : dm = { d0 with orphaned := some true } :=
          (Option.some.inj hdm).symm
        refine ⟨d0, rfl, ?_⟩
        rw [hf, hd]
    · rw [if_neg hmn] at hdm
      exact ⟨dm, hdm, hf⟩

theorem orphan_fold_none (l : List String) :
    ∀ (G : Graph) (n : String), G.getNode n = none →
      (l.foldl orphanOne G).getNode n = none := by
  induction l with
  | nil =>
    intro G n h
    exact h
  | cons m rest ih =>
    intro G n h
    rw [List.foldl_cons]
    apply ih
    rw [orphanOne_getNode G m n]
    by_cases hmn : m = n
    · rw [if_pos hmn, h]
      rfl
    · rw [if_neg hmn]
      exact h

theorem create_orphaned_nodes_shape (cfg : Config) (G : Graph) (s : List Nat) :
    ∃ l : List String, (create_orphaned_nodes cfg G s).1 = l.foldl orphanOne G := by
  unfold create_orphaned_nodes
  exact ⟨_, rfl⟩

theorem assign_scores_loop_edges (hv mv lv : Nat) :
    ∀ (l : List String) (G : Graph) (i : Nat) (s : List Nat),
      (assign_scores_loop hv mv lv G l i s).1.edges = G.edges := by
  intro l
  induction l with
  | nil =>
    intro G i s
    rfl
  | cons n rest ih =>
    intro G i s
    rw [assign_scores_loop]
    rw [ih]
    rfl

theorem assign_scores_edges (G : Graph) (s : List Nat) :
    (assign_scores G s).1.edges = G.edges := by
  unfold assign_scores
  rw [assign_scores_loop_edges]

theorem assign_scores_loop_orphan (hv mv lv : Nat) :
    ∀ (l : List String) (G : Graph) (i : Nat) (s : List Nat) (n : String)
      (d' : NodeData),
      (assign_scores_loop hv mv lv G l i s).1.getNode n = some d' →
      ∃ d, G.getNode n = some d ∧ d'.orphaned = d.orphaned := by
  intro l
  induction l with
  | nil =>
    intro G i s n d' h
    exact ⟨d', h, rfl⟩
  | cons m rest ih =>
    intro G i s n d' h
    rw [assign_scores_loop] at h
    obtain ⟨dm, hdm, ho⟩ := ih _ _ _ n d' h
    rw [Graph.setScore_getNode] at hdm
    by_cases hmn : m = n
    · rw [if_pos hmn] at hdm
      cases hg : G.getNode n with
      | none =>
        rw [hg] at hdm
        cases hdm
      | some d0 =>
        rw [hg] at hdm
        have hd : dm = { d0 with score := some (drawScore hv mv lv i s).1 } :=
          (Option.some.inj hdm).symm
        refine ⟨d0, rfl, ?_⟩
        rw [ho, hd]
    · rw [if_neg hmn] at hdm
      exact ⟨dm, hdm, ho⟩

theorem assign_scores_orphan (G : Graph) (s : List Nat) (n : String) (d' : NodeData)
    (h : (assign_scores G s).1.getNode n = some d') :
    ∃ d, G.getNode n = some d ∧ d'.orphaned = d.orphaned := by
  unfold assign_scores at h
  exact assign_scores_loop_orphan _ _ _ _ G 0 _ n d' h

theorem getNode_entry (G : Graph) (n : String) (d : NodeData)
    (h : G.getNode n = some d) : (n, d) ∈ G.nodes := by
  unfold Graph.getNode at h
  cases hf : G.nodes.find? (fun p => p.1 == n) with
  | none =>
    rw [hf] at h
    cases h
  | some q =>
    rw [hf] at h
    have hq : q ∈ G.nodes := List.mem_of_find?_eq_some hf
    have hpred := List.find?_some hf
    have hqn : q.1 = n := by simpa using hpred
    have hd : q.2 = d := Option.some.inj h
    rw [← hqn, ← hd]
    simpa using hq

theorem no_cluster_ids_getNode (G : Graph)
    (hcl : ∀ p ∈ G.nodes, isClusterId p.1 = false) :
    ∀ n, isClusterId n = true → G.getNode n = none := by
  intro n hn
  cases hg : G.getNode n with
  | none => rfl
  | some d =>
    have hfalse := hcl (n, d) (getNode_entry G n d hg)
    rw [hn] at hfalse
    cases hfalse

theorem cluster_pass_orphan_deg (cfg : Config) (G1 : Graph) (s : List Nat)
    (hnd1 : G1.NodupKeys)
    (hcl1 : ∀ n, isClusterId n = true → G1.getNode n = none)
    (hinv1 : OrphanDegreeInv G1)
    (hflag1 : ∀ n d, G1.getNode n = some d → d.orphaned = some true →
      d.is_disconnected_subgraph ≠ some true) :
    OrphanDegreeInv (create_disconnected_subgraphs cfg G1 s).1 := by
  intro n d hget hod
  obtain ⟨hnd2, hpres, hedges, horph⟩ :=
    create_disconnected_subgraphs_inv cfg G1 s hnd1 hcl1
  have hg1 : G1.getNode n = some d := horph n d hget hod
  obtain ⟨hin, hout⟩ := hinv1 n d hg1 hod
  have hflagn : (create_disconnected_subgraphs cfg G1 s).1.flaggedB n = false := by
    unfold Graph.flaggedB
    rw [hget]
    simpa using hflag1 n d hg1 hod
  constructor
  · unfold Graph.in_edges
    apply List.filter_eq_nil_iff.mpr
    intro e he hb
    rcases hedges e he with h1 | ⟨hf1, hf2⟩
    · have hmem : e ∈ G1.in_edges n := List.mem_filter.mpr ⟨h1, hb⟩
      rw [hin] at hmem
      cases hmem
    · have htn : e.target = n := by simpa using hb
      rw [htn, hflagn] at hf2
      cases hf2
  · unfold Graph.out_edges
    apply List.filter_eq_nil_iff.mpr
    intro e he hb
    rcases hedges e he with h1 | ⟨hf1, hf2⟩
    · have hmem : e ∈ G1.out_edges n := List.mem_filter.mpr ⟨h1, hb⟩
      rw [hout] at hmem
      cases hmem
    · have hsn : e.source = n := by simpa using hb
      rw [hsn, hflagn] at hf1
      cases hf1

/-- Claim C6: every node whose orphaned flag is set at the end of the
pipeline tail of `generate_graph` (orphan injection, subgraph injection,
score assignment) has in-degree 0 and out-degree 0.  The orphan injector
removes all incident edges when it sets the flag; the subgraph injector
only adds edges between nodes flagged `is_disconnected_subgraph=True`
(never an orphan, since its own nodes are fresh and never flagged
orphaned); score assignment touches no edge.  Hypotheses: the incoming
graph has duplicate-free node ids, no orphan or subgraph flags yet, and
no `disconnected.`-prefixed ids — all true of the graph the generator
builds before line 400. -/
theorem C6_orphans_have_degree_zero (cfg : Config) (G : Graph) (s : List Nat)
    (hnd : G.NodupKeys)
    (horph0 : ∀ p ∈ G.nodes, p.2.orphaned ≠ some true)
    (hflags : ∀ p ∈ G.nodes, p.2.is_disconnected_subgraph ≠ some true)
    (hcl : ∀ p ∈ G.nodes, isClusterId p.1 = false) :
    ∀ n d, (finishing_passes cfg G s).getNode n = some d →
      d.orphaned = some true →
      (finishing_passes cfg G s).in_edges n = [] ∧
      (finishing_passes cfg G s).out_edges n = [] := by
  obtain ⟨l, hl⟩ := create_orphaned_nodes_shape cfg G s
  have hkeys1 : (create_orphaned_nodes cfg G s).1.keys = G.keys := by
    rw [hl]
    exact orphan_fold_keys l G
  have hnd1 : (create_orphaned_nodes cfg G s).1.NodupKeys := by
    unfold Graph.NodupKeys
    rw [hkeys1]
    exact hnd
  have hcl0 : ∀ n, isClusterId n = true → G.getNode n = none :=
    no_cluster_ids_getNode G hcl
  have hcl1 : ∀ n, isClusterId n = true →
      (create_orphaned_nodes cfg G s).1.getNode n = none := by
    intro n hn
    rw [hl]
    exact orphan_fold_none l G n (hcl0 n hn)
  have hinv0 : OrphanDegreeInv G := by
    intro n d hgn hodn
    exact absurd hodn (horph0 (n, d) (getNode_entry G n d hgn))
  have hinv1 : OrphanDegreeInv (create_orphaned_nodes cfg G s).1 := by
    rw [hl]
    exact orphan_fold_inv l G hinv0
  have hflag1 : ∀ n d, (create_orphaned_nodes cfg G s).1.getNode n = some d →
      d.orphaned = some true → d.is_disconnected_subgraph ≠ some true := by
    intro n d hgn _
    rw [hl] at hgn
    obtain ⟨d0, hg0, hf⟩ := orphan_fold_flag l G n d hgn
    rw [hf]
    exact hflags (n, d0) (getNode_entry G n d0 hg0)
  have hinv2 := cluster_pass_orphan_deg cfg _ (create_orphaned_nodes cfg G s).2
    hnd1 hcl1 hinv1 hflag1
  intro n d hget hod
  have hFP : finishing_passes cfg G s =
      (assign_scores
        (create_disconnected_subgraphs cfg (create_orphaned_nodes cfg G s).1
          (create_orphaned_nodes cfg G s).2).1
        (create_disconnected_subgraphs cfg (create_orphaned_nodes cfg G s).1
          (create_orphaned_nodes cfg G s).2).2).1 := rfl
  rw [hFP] at hget ⊢
  obtain ⟨d2, hg2, hoeq⟩ := assign_scores_orphan _ _ n d hget
  have hod2 : d2.orphaned = some true := by
    rw [← hoeq]
    exact hod
  obtain ⟨hin2, hout2⟩ := hinv2 n d2 hg2 hod2
  have hE := assign_scores_edges
    (create_disconnected_subgraphs cfg (create_orphaned_nodes cfg G s).1
      (create_orphaned_nodes cfg G s).2).1
    (create_disconnected_subgraphs cfg (create_orphaned_nodes cfg G s).1
      (create_orphaned_nodes cfg G s).2).2
  constructor
  · unfold Graph.in_edges
    rw [hE]
    exact hin2
  · unfold Graph.out_edges
    rw [hE]
    exact hout2

/-- A two-node, one-edge graph for the C6 witness. -/
def C6wG : Graph :=
  ((Graph.empty.add_node "t"
      { id := some "t", type_ := some "table", data_source := some "snowflake",
        team := some "team_1" }).add_node "c"
      { id := some "c", type_ := some "column", data_source := some "snowflake",
        team := some "team_1" }).add_edge "t" "c" "parent_child"

/-- Configuration for the C6 witness: one orphan, no disconnected
subgraphs. -/
def cfgC6 : Config :=
  { min_nodes := 0, edge_multiplier := 0, orphaned_node_pct := 50,
    disconnected_subgraphs := 0, teams := ["team_1"],
    data_sources := ["snowflake"] }

/-- Witness for C6: the hypotheses hold for a concrete two-node graph
with one edge, and the claim theorem applies to it. -/
theorem C6_witness :
    C6wG.NodupKeys ∧
    (∀ p ∈ C6wG.nodes, p.2.orphaned ≠ some true) ∧
    (∀ p ∈ C6wG.nodes, p.2.is_disconnected_subgraph ≠ some true) ∧
    (∀ p ∈ C6wG.nodes, isClusterId p.1 = false) ∧
    (∀ n d, (finishing_passes cfgC6 C6wG [0, 0, 0]).getNode n = some d →
      d.orphaned = some true →
      (finishing_passes cfgC6 C6wG [0, 0, 0]).in_edges n = [] ∧
      (finishing_passes cfgC6 C6wG [0, 0, 0]).out_edges n = []) :=
  ⟨by decide, by decide, by decide, by decide,
    C6_orphans_have_degree_zero cfgC6 C6wG [0, 0, 0] (by decide) (by decide)
      (by decide) (by decide)⟩
